import Mathlib

/-!
Verification of the TECNOsense tracker core (backfill.py, simulate.py).

Shallow embedding conventions:
* Timestamps are minutes since a Monday-midnight epoch, as `ℤ`.
  `datetime.hour` becomes `pyHour`, `datetime.weekday()` becomes `pyWeekday`,
  and `timedelta` addition becomes integer addition of minutes.
* Python floats are modelled as `ℚ`.  The ambient randomness of the `random`
  module is modelled as a tape `u : ℕ → ℚ` of uniform draws in `[0, 1)`,
  consumed in program order: `random.random()` reads one cell directly,
  `random.uniform a b` reads one cell `v` and yields `a + (b - a) * v`
  (the CPython formula), and `random.randint a b` reads one cell `v` and
  yields `a + ⌊v * (b - a + 1)⌋`, a uniform integer of `[a, b]`.
* Python `round(x, 2)` (banker's rounding) becomes `round2`.
* Firestore is replaced by an explicit sink behaviour: each commit / add
  call is told by the environment whether it succeeds, raises a transient
  (rate-limit) exception, or raises any other (fatal) exception.  Exception
  propagation is modelled by explicit error outcomes threaded to the caller.
-/

/-- Result of one uniform draw fed to `random.randint a b`:
a uniform integer of `[a, b]` when the draw lies in `[0, 1)`. -/
def pyRandint (a b : ℤ) (u : ℚ) : ℤ := a + ⌊u * ((b - a + 1 : ℤ) : ℚ)⌋

/-- Result of one uniform draw fed to `random.uniform a b` (CPython formula). -/
def pyUniform (a b : ℚ) (u : ℚ) : ℚ := a + (b - a) * u

/-- Round a rational to the nearest integer, ties to the even integer,
as Python's `round` does. -/
def roundHalfEven (q : ℚ) : ℤ :=
  if q - ⌊q⌋ < 1/2 then ⌊q⌋
  else if 1/2 < q - ⌊q⌋ then ⌊q⌋ + 1
  else if ⌊q⌋ % 2 = 0 then ⌊q⌋ else ⌊q⌋ + 1

/-- Python's `round(q, 2)`. -/
def round2 (q : ℚ) : ℚ := (roundHalfEven (q * 100) : ℤ) / 100

/-- Hour-of-day `[0, 23]` of a timestamp in minutes (`timestamp.hour`). -/
def pyHour (t : ℤ) : ℤ := (t.emod 1440).ediv 60

/-- Day-of-week `[0, 6]`, Monday = 0 (`timestamp.weekday()`). -/
def pyWeekday (t : ℤ) : ℤ := (t.ediv 1440).emod 7

namespace Backfill

/-- The dict returned by `generate_sensor_data` in backfill.py.
`is_occupied` and `is_smoke_detected` are the integers `1` / `0`, exactly as
the source stores them.  `room_id` starts out as Python `None`. -/
structure SensorData where
  avg_person_count : ℤ
  max_person_count : ℤ
  is_occupied : ℤ
  is_smoke_detected : ℤ
  avg_light_intensity : ℚ
  avg_air_quality_ppm : ℚ
  timestamp : ℤ
  room_id : Option String
deriving DecidableEq, Repr

/-- backfill.py lines 31-39: the occupancy branch of `generate_sensor_data`.
The triple carries (is_occupied, person_count, number of tape cells the
branch consumed). -/
def occupancy (timestamp : ℤ) (u : ℕ → ℚ) : Bool × ℤ × ℕ :=
  let hour := pyHour timestamp
  let weekday := pyWeekday timestamp
  if weekday < 5 then
    if (8 ≤ hour ∧ hour < 12) ∨ (13 ≤ hour ∧ hour < 17) then
      (if u 0 > 3/10 then (true, pyRandint 5 35 (u 1), 2) else (false, 0, 1))
    else if (12 ≤ hour ∧ hour < 13) ∨ (17 ≤ hour ∧ hour < 20) then
      (if u 0 > 7/10 then (true, pyRandint 1 10 (u 1), 2) else (false, 0, 1))
    else (false, 0, 0)
  else
    if 10 ≤ hour ∧ hour < 16 then
      (if u 0 > 85/100 then (true, pyRandint 1 5 (u 1), 2) else (false, 0, 1))
    else (false, 0, 0)

/-- backfill.py lines 29-50: occupancy model plus derived fields.  After the
occupancy branch the dict literal consumes four more tape cells in source
order (`randint(0,5)`, smoke `random()`, light `uniform`, air `uniform`). -/
def generate_sensor_data (timestamp : ℤ) (u : ℕ → ℚ) : SensorData :=
  let hour := pyHour timestamp
  let occ : Bool × ℤ × ℕ := occupancy timestamp u
  let is_occupied : Bool := occ.1
  let person_count : ℤ := occ.2.1
  let i : ℕ := occ.2.2
  { avg_person_count := person_count
    max_person_count := person_count + pyRandint 0 5 (u i)
    is_occupied := if is_occupied then 1 else 0
    is_smoke_detected := if u (i + 1) > 999/1000 then 1 else 0
    avg_light_intensity :=
      round2 (if is_occupied = true ∧ 7 < hour ∧ hour < 18
              then pyUniform 300 550 (u (i + 2))
              else pyUniform 10 50 (u (i + 2)))
    avg_air_quality_ppm :=
      round2 (400 + (person_count : ℚ) * 15 + pyUniform (-20) 20 (u (i + 3)))
    timestamp := timestamp
    room_id := none }

/-- Outcome of one Firestore commit / add call, as classified by the source's
except-clause: `transient` stands for `ResourceExhausted` / `RetryError`
(caught and retried), `fatal` for every other exception (uncaught, so it
propagates to the caller). -/
inductive SinkResult
  | success
  | transient
  | fatal
deriving DecidableEq, Repr

/-- Observable outcome of `commit_batch_with_retry`: how many commit calls
were made and which backoff sleeps were performed, together with how control
left the function (normal `True` return, normal `False` return after the
loop, or a propagating non-transient exception). -/
inductive CommitOutcome
  | committed (attempts : ℕ) (delays : List ℕ)
  | exhausted (attempts : ℕ) (delays : List ℕ)
  | fatalError (attempts : ℕ) (delays : List ℕ)
deriving DecidableEq, Repr

/-- backfill.py line 54: `max_retries = 5`. -/
def max_retries : ℕ := 5

/-- backfill.py lines 57-71: the `for attempt in range(max_retries)` loop.
`fuel` is the number of loop iterations still allowed, `attempt` the number of
commit calls already made, `retry_delay` the current backoff, `delays` the
sleeps performed so far.  On a transient error the code sleeps `retry_delay`
(also on the final iteration) and doubles it; any other exception propagates
at once. -/
def commitAttempts (sink : ℕ → SinkResult) :
    ℕ → ℕ → ℕ → List ℕ → CommitOutcome
  | 0, attempt, _, delays => .exhausted attempt delays
  | fuel + 1, attempt, retry_delay, delays =>
    match sink attempt with
    | .success => .committed (attempt + 1) delays
    | .fatal => .fatalError (attempt + 1) delays
    | .transient =>
        commitAttempts sink fuel (attempt + 1) (retry_delay * 2)
          (delays ++ [retry_delay])

/-- backfill.py lines 52-71: commit a batch with bounded retry, starting from
a 5-unit backoff.  The batch contents do not influence control flow, so the
function is parametrised only by the sink's behaviour per attempt. -/
def commit_batch_with_retry (sink : ℕ → SinkResult) : CommitOutcome :=
  commitAttempts sink max_retries 0 5 []

/-- True exactly when the committer returned `True` (success). -/
def CommitOutcome.isCommitted : CommitOutcome → Bool
  | .committed _ _ => true
  | .exhausted _ _ => false
  | .fatalError _ _ => false

/-- backfill.py lines 10-17: the configuration constants of the module. -/
def ROOM_IDS : List String := ["Clasroom 1", "Classroom 2", "Lab"]

/-- backfill.py line 12. -/
def NUM_DAYS_HISTORY : ℕ := 30

/-- backfill.py line 13. -/
def HISTORY_INTERVAL_MINUTES : ℕ := 15

/-- backfill.py line 16. -/
def BATCH_SIZE : ℕ := 50

/-- How a whole backfill run ends: normal completion (the final progress
message is printed), an early `return` after committer exhaustion, a
propagating non-transient exception, or — an artefact of the bounded model
only — the iteration budget ran out before the virtual clock reached `now`
(this marks runs the unbounded source loop would still be executing, e.g.
with a non-positive interval). -/
inductive RunOutcome
  | completed
  | abortedExhausted
  | abortedFatal
  | outOfFuel
deriving DecidableEq, Repr

/-- Observable trace of a backfill run: how it ended, every record produced
by `generate_sensor_data` in generation order, and every record contained in
a batch whose commit call returned success, in submission order. -/
structure BackfillTrace where
  outcome : RunOutcome
  generated : List SensorData
  submitted : List SensorData

/-- Result of the per-tick room loop: either continue with updated
accumulators, or stop the whole run (the source's `return` on a `False`
committer result, or a propagating non-transient exception). -/
inductive RoomsOut
  | next (batch : List SensorData) (bIdx : ℕ) (gen subm : List SensorData)
  | stopExhausted (gen subm : List SensorData)
  | stopFatal (gen subm : List SensorData)

/-- The generated-records accumulator carried by any room-loop result. -/
def RoomsOut.genList : RoomsOut → List SensorData
  | .next _ _ g _ => g
  | .stopExhausted g _ => g
  | .stopFatal g _ => g

/-- backfill.py lines 85-100: the `for room_id in ROOM_IDS` body of one tick:
generate a record, set its `room_id`, append it to the in-flight batch, and
when the batch reaches `batchSize` records commit it through
`commit_batch_with_retry` (batch number `bIdx`), emptying the batch on
success, returning on exhaustion, and propagating a fatal error. -/
def roomsPass (sink : ℕ → ℕ → SinkResult) (batchSize : ℕ)
    (u : String → ℕ → ℚ) (t : ℤ) :
    List String → List SensorData → ℕ → List SensorData → List SensorData →
    RoomsOut
  | [], batch, bIdx, gen, subm => .next batch bIdx gen subm
  | room_id :: rest, batch, bIdx, gen, subm =>
    let data0 := generate_sensor_data t (u room_id)
    let data : SensorData := { data0 with room_id := some room_id }
    let batch2 := batch ++ [data]
    let gen2 := gen ++ [data]
    if batchSize ≤ batch2.length then
      match commit_batch_with_retry (fun a => sink bIdx a) with
      | .committed _ _ =>
          roomsPass sink batchSize u t rest [] (bIdx + 1) gen2 (subm ++ batch2)
      | .exhausted _ _ => .stopExhausted gen2 subm
      | .fatalError _ _ => .stopFatal gen2 subm
    else
      roomsPass sink batchSize u t rest batch2 bIdx gen2 subm

/-- backfill.py lines 104-107: flush the trailing partial batch.  The return
value of the final `commit_batch_with_retry` call is discarded, so a `False`
(exhaustion) result still falls through to the completion message; only a
propagating non-transient exception aborts the run before that message. -/
def finishTrailing (sink : ℕ → ℕ → SinkResult) (batch : List SensorData)
    (bIdx : ℕ) (gen subm : List SensorData) : BackfillTrace :=
  if batch.isEmpty then ⟨.completed, gen, subm⟩
  else
    match commit_batch_with_retry (fun a => sink bIdx a) with
    | .committed _ _ => ⟨.completed, gen, subm ++ batch⟩
    | .exhausted _ _ => ⟨.completed, gen, subm⟩
    | .fatalError _ _ => ⟨.abortedFatal, gen, subm⟩

/-- backfill.py lines 84-102: the `while current_time < now` loop stepping
the clock by `I` minutes, with `fuel` bounding the number of iterations (the
top-level entry point passes enough fuel for the whole window whenever the
interval is positive).  `u t room` is the tape the generator call for `room`
at tick time `t` consumes; `sink b a` classifies attempt `a` of the commit
of batch number `b`. -/
def backfillLoop (sink : ℕ → ℕ → SinkResult) (batchSize : ℕ)
    (rooms : List String) (u : ℤ → String → ℕ → ℚ) (now I : ℤ) :
    ℕ → ℤ → List SensorData → ℕ → List SensorData → List SensorData →
    BackfillTrace
  | 0, current, batch, bIdx, gen, subm =>
    if current < now then ⟨.outOfFuel, gen, subm⟩
    else finishTrailing sink batch bIdx gen subm
  | fuel + 1, current, batch, bIdx, gen, subm =>
    if current < now then
      match roomsPass sink batchSize (u current) current rooms batch bIdx
          gen subm with
      | .next batch2 bIdx2 gen2 subm2 =>
          backfillLoop sink batchSize rooms u now I fuel (current + I)
            batch2 bIdx2 gen2 subm2
      | .stopExhausted gen2 subm2 => ⟨.abortedExhausted, gen2, subm2⟩
      | .stopFatal gen2 subm2 => ⟨.abortedFatal, gen2, subm2⟩
    else finishTrailing sink batch bIdx gen subm

/-- backfill.py lines 73-107: run the backfill over the window
`[now - H, now)` in steps of `I` minutes (`H` is the horizon
`NUM_DAYS_HISTORY` in minutes, `I` is `HISTORY_INTERVAL_MINUTES`).  The fuel
`H.toNat` suffices for every positive interval, since each iteration
advances the clock by at least one minute. -/
def backfill_historical_data (sink : ℕ → ℕ → SinkResult) (batchSize : ℕ)
    (rooms : List String) (u : ℤ → String → ℕ → ℚ) (now H I : ℤ) :
    BackfillTrace :=
  backfillLoop sink batchSize rooms u now I H.toNat (now - H) [] 0 [] []

end Backfill

namespace Simulate

/-- The dict returned by `generate_sensor_data` in simulate.py: same fields as
the backfill copy except that no `room_id` key is present. -/
structure SensorData where
  avg_person_count : ℤ
  max_person_count : ℤ
  is_occupied : ℤ
  is_smoke_detected : ℤ
  avg_light_intensity : ℚ
  avg_air_quality_ppm : ℚ
  timestamp : ℤ
deriving DecidableEq, Repr

/-- simulate.py lines 26-34: the occupancy branch, textually identical to the
backfill copy. -/
def occupancy (timestamp : ℤ) (u : ℕ → ℚ) : Bool × ℤ × ℕ :=
  let hour := pyHour timestamp
  let weekday := pyWeekday timestamp
  if weekday < 5 then
    if (8 ≤ hour ∧ hour < 12) ∨ (13 ≤ hour ∧ hour < 17) then
      (if u 0 > 3/10 then (true, pyRandint 5 35 (u 1), 2) else (false, 0, 1))
    else if (12 ≤ hour ∧ hour < 13) ∨ (17 ≤ hour ∧ hour < 20) then
      (if u 0 > 7/10 then (true, pyRandint 1 10 (u 1), 2) else (false, 0, 1))
    else (false, 0, 0)
  else
    if 10 ≤ hour ∧ hour < 16 then
      (if u 0 > 85/100 then (true, pyRandint 1 5 (u 1), 2) else (false, 0, 1))
    else (false, 0, 0)

/-- simulate.py lines 24-44, textually the same algorithm as the backfill
copy minus the `room_id` key. -/
def generate_sensor_data (timestamp : ℤ) (u : ℕ → ℚ) : SensorData :=
  let hour := pyHour timestamp
  let occ : Bool × ℤ × ℕ := occupancy timestamp u
  let is_occupied : Bool := occ.1
  let person_count : ℤ := occ.2.1
  let i : ℕ := occ.2.2
  { avg_person_count := person_count
    max_person_count := person_count + pyRandint 0 5 (u i)
    is_occupied := if is_occupied then 1 else 0
    is_smoke_detected := if u (i + 1) > 999/1000 then 1 else 0
    avg_light_intensity :=
      round2 (if is_occupied = true ∧ 7 < hour ∧ hour < 18
              then pyUniform 300 550 (u (i + 2))
              else pyUniform 10 50 (u (i + 2)))
    avg_air_quality_ppm :=
      round2 (400 + (person_count : ℚ) * 15 + pyUniform (-20) 20 (u (i + 3)))
    timestamp := timestamp }

/-- simulate.py line 12: 1 real second advances the virtual clock by 60
simulated seconds, i.e. by exactly 1 minute of our minute-grained clock. -/
def TIME_ACCELERATION_FACTOR : ℕ := 60

/-- A write event of the live simulator: loop iteration number (1-based),
room id, and the record handed to `db.collection(...).add`. -/
abbrev WriteEvent := ℕ × String × SensorData

/-- Observable trace of a bounded run of `simulate_accelerated_time`:
the successful single-record writes in order, the final per-room
`last_written_state` dictionary, and — when some `add` call raised — the
iteration and room at which the uncaught exception ended the loop. -/
structure SimTrace where
  writes : List WriteEvent
  finalState : String → ℤ
  crashed : Option (ℕ × String)

/-- Dictionary update `last_written_state[room_id]["person_count"] = c`. -/
def stateUpdate (st : String → ℤ) (room_id : String) (c : ℤ) : String → ℤ :=
  fun x => if x = room_id then c else st x

/-- simulate.py lines 60-76: the `for room_id in ROOM_IDS` body of one tick.
`sinkOk room` tells whether the `add` call for that room would succeed this
tick; a failing `add` raises, and since the surrounding `try` only catches
`KeyboardInterrupt`, the exception aborts the whole loop (`Except.error`),
with the state still holding the last successfully written counts and the
failed write absent from the trace. -/
def roomsLoop (sinkOk : String → Bool) (t : ℤ) (u : String → ℕ → ℚ)
    (tick : ℕ) :
    List String → (String → ℤ) → List WriteEvent →
    Except ((String → ℤ) × List WriteEvent × String)
      ((String → ℤ) × List WriteEvent)
  | [], st, ws => .ok (st, ws)
  | room_id :: rest, st, ws =>
    let data := generate_sensor_data t (u room_id)
    let last_count := st room_id
    let current_count := data.avg_person_count
    if current_count ≠ last_count then
      if sinkOk room_id then
        roomsLoop sinkOk t u tick rest (stateUpdate st room_id current_count)
          (ws ++ [(tick, room_id, data)])
      else .error (st, ws, room_id)
    else roomsLoop sinkOk t u tick rest st ws

/-- simulate.py lines 56-84: the `while True` loop, bounded by `fuel`
(external cancellation / `KeyboardInterrupt` after that many iterations —
the only clean exit the source has).  Each iteration first advances the
virtual clock by one minute, then runs the per-room body; an uncaught `add`
exception ends the run with `crashed` set. -/
def simLoop (rooms : List String) (sinkOk : ℕ → String → Bool)
    (u : ℕ → String → ℕ → ℚ) :
    ℕ → ℕ → ℤ → (String → ℤ) → List WriteEvent → SimTrace
  | 0, _, _, st, ws => ⟨ws, st, none⟩
  | fuel + 1, tick, t, st, ws =>
    let t2 := t + 1
    match roomsLoop (sinkOk tick) t2 (u tick) tick rooms st ws with
    | .ok (st2, ws2) => simLoop rooms sinkOk u fuel (tick + 1) t2 st2 ws2
    | .error (st2, ws2, r) => ⟨ws2, st2, some (tick, r)⟩

/-- simulate.py lines 46-84: run the live simulator for `nTicks` iterations
from virtual time `start`, with `last_written_state` initialised to the
sentinel `-1` for every room.  `u tick room` is the tape the generator call
for `room` in iteration `tick` consumes; `sinkOk tick room` is whether that
iteration's `add` for `room` would succeed. -/
def simulate_accelerated_time (rooms : List String) (start : ℤ)
    (u : ℕ → String → ℕ → ℚ) (sinkOk : ℕ → String → Bool) (nTicks : ℕ) :
    SimTrace :=
  simLoop rooms sinkOk u nTicks 1 start (fun _ => -1) []

/-- Projection of a trace to one room: the (iteration, written person count)
pairs of its successful writes, in order. -/
def writesFor (r : String) (ws : List WriteEvent) : List (ℕ × ℤ) :=
  (ws.filter (fun e => e.2.1 == r)).map fun e => (e.1, e.2.2.avg_person_count)

/-- Person count of the last successful write for a room, `-1` if none — the
value the spec says `EntityWriteState` must always hold. -/
def lastWrittenCount (r : String) (ws : List WriteEvent) : ℤ :=
  (((ws.filter (fun e => e.2.1 == r)).map
    fun e => e.2.2.avg_person_count).getLast?).getD (-1)

/-- Modelled from the spec's change-detection contract (the sentence this is
compared against): keep exactly those readings whose count differs from the
last kept count, starting from the sentinel `last`. -/
def dedupeWrites (last : ℤ) : List (ℕ × ℤ) → List (ℕ × ℤ)
  | [] => []
  | (t, c) :: rest =>
    if c ≠ last then (t, c) :: dedupeWrites c rest else dedupeWrites last rest

/-- The person counts the generator produces for room `r` across a run of
`n` ticks starting at virtual time `start`, labelled by iteration number. -/
def roomCounts (start : ℤ) (u : ℕ → String → ℕ → ℚ) (r : String) (n : ℕ) :
    List (ℕ × ℤ) :=
  (List.range n).map fun k =>
    (k + 1, (generate_sensor_data (start + (k + 1)) (u (k + 1) r)).avg_person_count)

/-- Generalisation of `roomCounts` to a loop resumed at iteration `tick` and
virtual time `t` with `fuel` iterations left. -/
def roomCountsFrom (t : ℤ) (u : ℕ → String → ℕ → ℚ) (r : String)
    (tick fuel : ℕ) : List (ℕ × ℤ) :=
  (List.range fuel).map fun k =>
    (tick + k, (generate_sensor_data (t + (k + 1)) (u (tick + k) r)).avg_person_count)

/-- Concrete tape for the six-tick scenario of the spec: one room, generated
person counts 5, 5, 5, 8, 8, 3.  Ticks 1-5 fall in a weekday core-hour band
(counts from `[5, 35]`), tick 6 in the transitional band (counts from
`[1, 10]`). -/
def tape6 : ℕ → String → ℕ → ℚ := fun tick _ n =>
  if tick ≤ 3 then (if n = 0 then 1/2 else 0)
  else if tick ≤ 5 then (if n = 0 then 1/2 else if n = 1 then 3/31 else 0)
  else (if n = 0 then 4/5 else if n = 1 then 1/5 else 0)

end Simulate

section GeneratorLemmas

theorem pyRandint_bounds (a b : ℤ) (u : ℚ) (hab : a ≤ b) (h0 : 0 ≤ u) (h1 : u < 1) :
    a ≤ pyRandint a b u ∧ pyRandint a b u ≤ b := by
  unfold pyRandint
  have hn : (0 : ℚ) < ((b - a + 1 : ℤ) : ℚ) := by
    have : (0 : ℤ) < b - a + 1 := by omega
    exact_mod_cast this
  constructor
  · have : (0 : ℤ) ≤ ⌊u * ((b - a + 1 : ℤ) : ℚ)⌋ :=
      Int.floor_nonneg.mpr (mul_nonneg h0 (le_of_lt hn))
    omega
  · have hlt : u * ((b - a + 1 : ℤ) : ℚ) < ((b - a + 1 : ℤ) : ℚ) := by
      calc u * ((b - a + 1 : ℤ) : ℚ) < 1 * ((b - a + 1 : ℤ) : ℚ) := by
            exact mul_lt_mul_of_pos_right h1 hn
        _ = ((b - a + 1 : ℤ) : ℚ) := one_mul _
    have : ⌊u * ((b - a + 1 : ℤ) : ℚ)⌋ < b - a + 1 := Int.floor_lt.mpr (by exact_mod_cast hlt)
    omega

/-- The two `generate_sensor_data` copies agree on every shared field, and the
backfill copy's extra `room_id` field is `none`. -/
theorem generate_agree (t : ℤ) (u : ℕ → ℚ) :
    (Backfill.generate_sensor_data t u).avg_person_count
        = (Simulate.generate_sensor_data t u).avg_person_count
    ∧ (Backfill.generate_sensor_data t u).max_person_count
        = (Simulate.generate_sensor_data t u).max_person_count
    ∧ (Backfill.generate_sensor_data t u).is_occupied
        = (Simulate.generate_sensor_data t u).is_occupied
    ∧ (Backfill.generate_sensor_data t u).is_smoke_detected
        = (Simulate.generate_sensor_data t u).is_smoke_detected
    ∧ (Backfill.generate_sensor_data t u).avg_light_intensity
        = (Simulate.generate_sensor_data t u).avg_light_intensity
    ∧ (Backfill.generate_sensor_data t u).avg_air_quality_ppm
        = (Simulate.generate_sensor_data t u).avg_air_quality_ppm
    ∧ (Backfill.generate_sensor_data t u).timestamp
        = (Simulate.generate_sensor_data t u).timestamp
    ∧ (Backfill.generate_sensor_data t u).room_id = none :=
  ⟨rfl, rfl, rfl, rfl, rfl, rfl, rfl, rfl⟩

/-- Case analysis of the occupancy branch: either occupied with a person
count drawn from a band whose lower end is at least 1, or unoccupied with a
person count of 0. -/
theorem occupancy_cases (t : ℤ) (u : ℕ → ℚ) (hu : ∀ n, 0 ≤ u n ∧ u n < 1) :
    ((Backfill.occupancy t u).1 = true ∧ 1 ≤ (Backfill.occupancy t u).2.1)
    ∨ ((Backfill.occupancy t u).1 = false ∧ (Backfill.occupancy t u).2.1 = 0) := by
  unfold Backfill.occupancy
  dsimp only
  split_ifs with h1 h2 h3 h4 h5 h6 h7
  · exact Or.inl ⟨rfl, by
      show (1 : ℤ) ≤ pyRandint 5 35 (u 1)
      have := (pyRandint_bounds 5 35 (u 1) (by omega) (hu 1).1 (hu 1).2).1; omega⟩
  · exact Or.inr ⟨rfl, rfl⟩
  · exact Or.inl ⟨rfl, by
      show (1 : ℤ) ≤ pyRandint 1 10 (u 1)
      have := (pyRandint_bounds 1 10 (u 1) (by omega) (hu 1).1 (hu 1).2).1; omega⟩
  · exact Or.inr ⟨rfl, rfl⟩
  · exact Or.inr ⟨rfl, rfl⟩
  · exact Or.inl ⟨rfl, by
      show (1 : ℤ) ≤ pyRandint 1 5 (u 1)
      have := (pyRandint_bounds 1 5 (u 1) (by omega) (hu 1).1 (hu 1).2).1; omega⟩
  · exact Or.inr ⟨rfl, rfl⟩
  · exact Or.inr ⟨rfl, rfl⟩

/-- Core invariants of the backfill generator, proved once and transported to
the simulate copy through `generate_agree`. -/
theorem generate_core (t : ℤ) (u : ℕ → ℚ) (hu : ∀ n, 0 ≤ u n ∧ u n < 1) :
    (Backfill.generate_sensor_data t u).avg_person_count
        ≤ (Backfill.generate_sensor_data t u).max_person_count
    ∧ 0 ≤ (Backfill.generate_sensor_data t u).avg_person_count
    ∧ ((Backfill.generate_sensor_data t u).is_occupied = 1
        ↔ 0 < (Backfill.generate_sensor_data t u).avg_person_count) := by
  have hd : ∀ i : ℕ, 0 ≤ pyRandint 0 5 (u i) := fun i =>
    (pyRandint_bounds 0 5 (u i) (by omega) (hu i).1 (hu i).2).1
  simp only [Backfill.generate_sensor_data]
  rcases occupancy_cases t u hu with ⟨hb, hc⟩ | ⟨hb, hc⟩ <;> rw [hb] <;>
    refine ⟨by have := hd (Backfill.occupancy t u).2.2; omega, by omega, ?_⟩
  · simp only [if_pos rfl]
    exact ⟨fun _ => by omega, fun _ => rfl⟩
  · rw [if_neg (by decide : ¬(false = true))]
    constructor
    · intro h; exact absurd h (by decide)
    · intro h; omega

end GeneratorLemmas

/-- C1: for every timestamp and every outcome of the randomness tape (all
draws in `[0, 1)`), both copies of the reading generator return a record with
`max_person_count ≥ avg_person_count ≥ 0` and `is_occupied = 1` exactly when
`avg_person_count > 0`. -/
theorem C1_generator_invariants (t : ℤ) (u : ℕ → ℚ) (hu : ∀ n, 0 ≤ u n ∧ u n < 1) :
    ((Backfill.generate_sensor_data t u).avg_person_count
        ≤ (Backfill.generate_sensor_data t u).max_person_count
      ∧ 0 ≤ (Backfill.generate_sensor_data t u).avg_person_count
      ∧ ((Backfill.generate_sensor_data t u).is_occupied = 1
          ↔ 0 < (Backfill.generate_sensor_data t u).avg_person_count))
    ∧ ((Simulate.generate_sensor_data t u).avg_person_count
        ≤ (Simulate.generate_sensor_data t u).max_person_count
      ∧ 0 ≤ (Simulate.generate_sensor_data t u).avg_person_count
      ∧ ((Simulate.generate_sensor_data t u).is_occupied = 1
          ↔ 0 < (Simulate.generate_sensor_data t u).avg_person_count)) := by
  obtain ⟨ha, hm, ho, -⟩ := generate_agree t u
  obtain ⟨h1, h2, h3⟩ := generate_core t u hu
  exact ⟨⟨h1, h2, h3⟩, ⟨ha ▸ hm ▸ h1, ha ▸ h2, ho ▸ ha ▸ h3⟩⟩

/-- C1 witness: the invariants hold at a concrete timestamp (Monday 09:00) and
the all-zero tape. -/
theorem C1_generator_invariants_witness :
    (∀ n : ℕ, 0 ≤ (fun _ : ℕ => (0 : ℚ)) n ∧ (fun _ : ℕ => (0 : ℚ)) n < 1)
    ∧ ((Backfill.generate_sensor_data 540 (fun _ => 0)).avg_person_count
        ≤ (Backfill.generate_sensor_data 540 (fun _ => 0)).max_person_count
      ∧ 0 ≤ (Backfill.generate_sensor_data 540 (fun _ => 0)).avg_person_count
      ∧ ((Backfill.generate_sensor_data 540 (fun _ => 0)).is_occupied = 1
          ↔ 0 < (Backfill.generate_sensor_data 540 (fun _ => 0)).avg_person_count))
    ∧ ((Simulate.generate_sensor_data 540 (fun _ => 0)).avg_person_count
        ≤ (Simulate.generate_sensor_data 540 (fun _ => 0)).max_person_count
      ∧ 0 ≤ (Simulate.generate_sensor_data 540 (fun _ => 0)).avg_person_count
      ∧ ((Simulate.generate_sensor_data 540 (fun _ => 0)).is_occupied = 1
          ↔ 0 < (Simulate.generate_sensor_data 540 (fun _ => 0)).avg_person_count)) := by
  have hu : ∀ n : ℕ, 0 ≤ (fun _ : ℕ => (0 : ℚ)) n ∧ (fun _ : ℕ => (0 : ℚ)) n < 1 := by
    intro n; constructor <;> norm_num
  obtain ⟨hb, hs⟩ := C1_generator_invariants 540 (fun _ => 0) hu
  exact ⟨hu, hb, hs⟩

/-- C9: the backfill and simulate copies of the reading generator are
extensionally equal on every shared field for every timestamp and tape, and
the backfill copy additionally carries `room_id`, initialised to `None`. -/
theorem C9_generators_extensionally_equal (t : ℤ) (u : ℕ → ℚ) :
    (Backfill.generate_sensor_data t u).avg_person_count
        = (Simulate.generate_sensor_data t u).avg_person_count
    ∧ (Backfill.generate_sensor_data t u).max_person_count
        = (Simulate.generate_sensor_data t u).max_person_count
    ∧ (Backfill.generate_sensor_data t u).is_occupied
        = (Simulate.generate_sensor_data t u).is_occupied
    ∧ (Backfill.generate_sensor_data t u).is_smoke_detected
        = (Simulate.generate_sensor_data t u).is_smoke_detected
    ∧ (Backfill.generate_sensor_data t u).avg_light_intensity
        = (Simulate.generate_sensor_data t u).avg_light_intensity
    ∧ (Backfill.generate_sensor_data t u).avg_air_quality_ppm
        = (Simulate.generate_sensor_data t u).avg_air_quality_ppm
    ∧ (Backfill.generate_sensor_data t u).timestamp
        = (Simulate.generate_sensor_data t u).timestamp
    ∧ (Backfill.generate_sensor_data t u).room_id = none :=
  generate_agree t u

/-- C2: with a sink that fails transiently on every attempt, the committer
makes exactly 5 attempts, sleeping 5, 10, 20, 40, 80 units after failed
attempts 1-5, then reports exhaustion; with a first success at attempt
`k + 1 ≤ 5`, it returns success immediately after that attempt, having slept
the first `k` entries of that schedule. -/
theorem C2_retry_schedule (sink : ℕ → Backfill.SinkResult) :
    ((∀ i, i < 5 → sink i = .transient) →
        Backfill.commit_batch_with_retry sink
          = .exhausted 5 [5, 10, 20, 40, 80])
    ∧ (∀ k, k < 5 → (∀ i, i < k → sink i = .transient) → sink k = .success →
        Backfill.commit_batch_with_retry sink
          = .committed (k + 1) (List.take k [5, 10, 20, 40, 80])) := by
  constructor
  · intro h
    have h0 := h 0 (by omega); have h1 := h 1 (by omega)
    have h2 := h 2 (by omega); have h3 := h 3 (by omega)
    have h4 := h 4 (by omega)
    simp [Backfill.commit_batch_with_retry, Backfill.max_retries,
      Backfill.commitAttempts, h0, h1, h2, h3, h4]
  · intro k hk hprev hsucc
    interval_cases k
    · simp [Backfill.commit_batch_with_retry, Backfill.max_retries,
        Backfill.commitAttempts, hsucc]
    · have h0 := hprev 0 (by omega)
      simp [Backfill.commit_batch_with_retry, Backfill.max_retries,
        Backfill.commitAttempts, h0, hsucc]
    · have h0 := hprev 0 (by omega); have h1 := hprev 1 (by omega)
      simp [Backfill.commit_batch_with_retry, Backfill.max_retries,
        Backfill.commitAttempts, h0, h1, hsucc]
    · have h0 := hprev 0 (by omega); have h1 := hprev 1 (by omega)
      have h2 := hprev 2 (by omega)
      simp [Backfill.commit_batch_with_retry, Backfill.max_retries,
        Backfill.commitAttempts, h0, h1, h2, hsucc]
    · have h0 := hprev 0 (by omega); have h1 := hprev 1 (by omega)
      have h2 := hprev 2 (by omega); have h3 := hprev 3 (by omega)
      simp [Backfill.commit_batch_with_retry, Backfill.max_retries,
        Backfill.commitAttempts, h0, h1, h2, h3, hsucc]

/-- C2 witness: an always-transient sink exhausts after 5 attempts with the
full 5, 10, 20, 40, 80 schedule, and a sink succeeding on the third call
commits after 3 attempts having slept 5 then 10. -/
theorem C2_retry_schedule_witness :
    Backfill.commit_batch_with_retry (fun _ => .transient)
        = .exhausted 5 [5, 10, 20, 40, 80]
    ∧ Backfill.commit_batch_with_retry
          (fun i => if i < 2 then .transient else .success)
        = .committed 3 [5, 10] := by
  constructor
  · exact (C2_retry_schedule (fun _ => .transient)).1 (fun i _ => rfl)
  · have h := (C2_retry_schedule (fun i => if i < 2 then .transient else .success)).2
      2 (by omega) (fun i hi => if_pos hi) (if_neg (by omega))
    simpa using h

/-- C3: a non-transient (fatal) error on the first commit call is not caught
by the retry loop, so the committer delivers a terminal failure to its caller
after exactly 1 attempt with no backoff sleep. -/
theorem C3_fatal_no_retry (sink : ℕ → Backfill.SinkResult)
    (h : sink 0 = .fatal) :
    Backfill.commit_batch_with_retry sink = .fatalError 1 [] := by
  simp [Backfill.commit_batch_with_retry, Backfill.max_retries,
    Backfill.commitAttempts, h]

/-- C3 witness: an always-fatal sink yields a terminal failure after exactly
one attempt and no sleeps. -/
theorem C3_fatal_no_retry_witness :
    (fun _ : ℕ => Backfill.SinkResult.fatal) 0 = .fatal
    ∧ Backfill.commit_batch_with_retry (fun _ => .fatal) = .fatalError 1 [] :=
  ⟨rfl, C3_fatal_no_retry (fun _ => .fatal) rfl⟩

section SimulateLemmas

theorem writesFor_append_one (r r0 : String) (ws : List Simulate.WriteEvent)
    (tick : ℕ) (d : Simulate.SensorData) :
    Simulate.writesFor r (ws ++ [(tick, r0, d)])
      = Simulate.writesFor r ws
        ++ (if r0 = r then [(tick, d.avg_person_count)] else []) := by
  by_cases h : r0 = r
  · subst h
    simp [Simulate.writesFor, List.filter_append]
  · simp [Simulate.writesFor, List.filter_append, h]

theorem lastWrittenCount_append_one (r r0 : String)
    (ws : List Simulate.WriteEvent) (tick : ℕ) (d : Simulate.SensorData) :
    Simulate.lastWrittenCount r (ws ++ [(tick, r0, d)])
      = if r0 = r then d.avg_person_count else Simulate.lastWrittenCount r ws := by
  by_cases h : r0 = r
  · subst h
    simp [Simulate.lastWrittenCount, List.filter_append, List.getLast?_concat]
  · simp [Simulate.lastWrittenCount, List.filter_append, h]

theorem roomsLoop_ok_spec (sinkOk : String → Bool) (hok : ∀ x, sinkOk x = true)
    (t : ℤ) (u : String → ℕ → ℚ) (tick : ℕ) :
    ∀ (rs : List String) (st : String → ℤ) (ws : List Simulate.WriteEvent),
      ∃ st2 ws2,
        Simulate.roomsLoop sinkOk t u tick rs st ws = .ok (st2, ws2)
        ∧ (∀ e, e ∈ ws2 → e ∈ ws ∨ e.1 = tick)
        ∧ (∀ r, r ∉ rs →
            st2 r = st r ∧ Simulate.writesFor r ws2 = Simulate.writesFor r ws)
        ∧ (rs.Nodup → ∀ r, r ∈ rs →
            st2 r = (Simulate.generate_sensor_data t (u r)).avg_person_count
            ∧ Simulate.writesFor r ws2
              = Simulate.writesFor r ws
                ++ (if (Simulate.generate_sensor_data t (u r)).avg_person_count = st r
                    then []
                    else [(tick,
                      (Simulate.generate_sensor_data t (u r)).avg_person_count)])) := by
  intro rs
  induction rs with
  | nil =>
    intro st ws
    exact ⟨st, ws, rfl, fun e he => Or.inl he, fun r _ => ⟨rfl, rfl⟩,
      fun _ r hr => absurd hr (List.not_mem_nil r)⟩
  | cons r0 rest ih =>
    intro st ws
    by_cases hch : (Simulate.generate_sensor_data t (u r0)).avg_person_count = st r0
    · obtain ⟨st2, ws2, hrun, hnew, hout, hin⟩ := ih st ws
      refine ⟨st2, ws2, ?_, hnew, ?_, ?_⟩
      · simp only [Simulate.roomsLoop]
        rw [if_neg (not_not_intro hch)]
        exact hrun
      · intro r hr
        exact hout r (fun hm => hr (List.mem_cons_of_mem r0 hm))
      · intro hnd r hr
        rcases List.mem_cons.mp hr with hr0 | hrest
        · subst hr0
          have hnotin : r ∉ rest := (List.nodup_cons.mp hnd).1
          obtain ⟨hst, hws⟩ := hout r hnotin
          rw [if_pos hch]
          exact ⟨hst.trans hch.symm, by simpa using hws⟩
        · exact hin (List.nodup_cons.mp hnd).2 r hrest
    · obtain ⟨st2, ws2, hrun, hnew, hout, hin⟩ :=
        ih (Simulate.stateUpdate st r0
              (Simulate.generate_sensor_data t (u r0)).avg_person_count)
           (ws ++ [(tick, r0, Simulate.generate_sensor_data t (u r0))])
      refine ⟨st2, ws2, ?_, ?_, ?_, ?_⟩
      · simp only [Simulate.roomsLoop]
        rw [if_pos hch, if_pos (hok r0)]
        exact hrun
      · intro e he
        rcases hnew e he with hmem | htick
        · rcases List.mem_append.mp hmem with h1 | h2
          · exact Or.inl h1
          · right
            have : e = (tick, r0, Simulate.generate_sensor_data t (u r0)) :=
              List.mem_singleton.mp h2
            rw [this]
        · exact Or.inr htick
      · intro r hr
        have hne : r ≠ r0 := fun h => hr (h ▸ List.mem_cons_self r0 rest)
        have hnr : r ∉ rest := fun hm => hr (List.mem_cons_of_mem r0 hm)
        obtain ⟨hst, hws⟩ := hout r hnr
        constructor
        · rw [hst]
          simp [Simulate.stateUpdate, hne]
        · have hne2 : ¬(r0 = r) := fun h => hne h.symm
          rw [hws, writesFor_append_one, if_neg hne2, List.append_nil]
      · intro hnd r hr
        rcases List.mem_cons.mp hr with hr0 | hrest
        · subst hr0
          have hnotin : r ∉ rest := (List.nodup_cons.mp hnd).1
          obtain ⟨hst, hws⟩ := hout r hnotin
          constructor
          · rw [hst]
            simp [Simulate.stateUpdate]
          · rw [hws, writesFor_append_one, if_neg hch]
            simp
        · have hr0rest : r0 ∉ rest := (List.nodup_cons.mp hnd).1
          have hne : r ≠ r0 := fun h => hr0rest (h ▸ hrest)
          obtain ⟨hst, hws⟩ := hin (List.nodup_cons.mp hnd).2 r hrest
          have hstu : Simulate.stateUpdate st r0
              (Simulate.generate_sensor_data t (u r0)).avg_person_count r = st r := by
            simp [Simulate.stateUpdate, hne]
          rw [hstu] at hws
          have hne2 : ¬(r0 = r) := fun h => hne h.symm
          rw [writesFor_append_one, if_neg hne2, List.append_nil] at hws
          exact ⟨hst, hws⟩

end SimulateLemmas

section SimulateLoopLemmas

theorem roomsLoop_cons_skip (sinkOk : String → Bool) (t : ℤ) (u : String → ℕ → ℚ)
    (tick : ℕ) (r0 : String) (rest : List String) (st : String → ℤ)
    (ws : List Simulate.WriteEvent)
    (hch : (Simulate.generate_sensor_data t (u r0)).avg_person_count = st r0) :
    Simulate.roomsLoop sinkOk t u tick (r0 :: rest) st ws
      = Simulate.roomsLoop sinkOk t u tick rest st ws := by
  simp only [Simulate.roomsLoop]
  rw [if_neg (not_not_intro hch)]

theorem roomsLoop_cons_write (sinkOk : String → Bool) (t : ℤ) (u : String → ℕ → ℚ)
    (tick : ℕ) (r0 : String) (rest : List String) (st : String → ℤ)
    (ws : List Simulate.WriteEvent)
    (hch : (Simulate.generate_sensor_data t (u r0)).avg_person_count ≠ st r0)
    (hok : sinkOk r0 = true) :
    Simulate.roomsLoop sinkOk t u tick (r0 :: rest) st ws
      = Simulate.roomsLoop sinkOk t u tick rest
          (Simulate.stateUpdate st r0
            (Simulate.generate_sensor_data t (u r0)).avg_person_count)
          (ws ++ [(tick, r0, Simulate.generate_sensor_data t (u r0))]) := by
  simp only [Simulate.roomsLoop]
  rw [if_pos hch, if_pos hok]

theorem roomsLoop_cons_fail (sinkOk : String → Bool) (t : ℤ) (u : String → ℕ → ℚ)
    (tick : ℕ) (r0 : String) (rest : List String) (st : String → ℤ)
    (ws : List Simulate.WriteEvent)
    (hch : (Simulate.generate_sensor_data t (u r0)).avg_person_count ≠ st r0)
    (hfail : sinkOk r0 = false) :
    Simulate.roomsLoop sinkOk t u tick (r0 :: rest) st ws
      = .error (st, ws, r0) := by
  simp only [Simulate.roomsLoop]
  rw [if_pos hch, if_neg (by simp [hfail])]

theorem roomCountsFrom_succ (t : ℤ) (u : ℕ → String → ℕ → ℚ) (r : String)
    (tick fuel : ℕ) :
    Simulate.roomCountsFrom t u r tick (fuel + 1)
      = (tick, (Simulate.generate_sensor_data (t + 1) (u tick r)).avg_person_count)
          :: Simulate.roomCountsFrom (t + 1) u r (tick + 1) fuel := by
  simp only [Simulate.roomCountsFrom, List.range_succ_eq_map, List.map_cons,
    List.map_map, Nat.cast_zero, Nat.add_zero, zero_add]
  congr 1
  apply List.map_congr_left
  intro k _
  simp only [Function.comp_apply]
  rw [show ((k + 1 : ℕ) : ℤ) = (k : ℤ) + 1 from by push_cast; ring]
  have h1 : tick + (k + 1) = tick + 1 + k := by omega
  have h2 : (t + (((k : ℤ) + 1) + 1) : ℤ) = t + 1 + ((k : ℤ) + 1) := by ring
  rw [h1, h2]

end SimulateLoopLemmas

section SimulateRunLemmas

theorem simLoop_ok_spec (rooms : List String) (hnd : rooms.Nodup)
    (sinkOk : ℕ → String → Bool) (hok : ∀ a b, sinkOk a b = true)
    (u : ℕ → String → ℕ → ℚ) :
    ∀ (fuel tick : ℕ) (t : ℤ) (st : String → ℤ)
      (ws : List Simulate.WriteEvent),
      (Simulate.simLoop rooms sinkOk u fuel tick t st ws).crashed = none
      ∧ ∀ r ∈ rooms,
          Simulate.writesFor r
              (Simulate.simLoop rooms sinkOk u fuel tick t st ws).writes
            = Simulate.writesFor r ws
              ++ Simulate.dedupeWrites (st r)
                   (Simulate.roomCountsFrom t u r tick fuel) := by
  intro fuel
  induction fuel with
  | zero =>
    intro tick t st ws
    refine ⟨rfl, ?_⟩
    intro r _
    simp [Simulate.simLoop, Simulate.roomCountsFrom, Simulate.dedupeWrites]
  | succ fuel ih =>
    intro tick t st ws
    obtain ⟨st2, ws2, hrun, hnew, hout, hin⟩ :=
      roomsLoop_ok_spec (sinkOk tick) (hok tick) (t + 1) (u tick) tick rooms st ws
    have hstep : Simulate.simLoop rooms sinkOk u (fuel + 1) tick t st ws
        = Simulate.simLoop rooms sinkOk u fuel (tick + 1) (t + 1) st2 ws2 := by
      simp only [Simulate.simLoop]
      rw [hrun]
    obtain ⟨ihc, ihw⟩ := ih (tick + 1) (t + 1) st2 ws2
    refine ⟨by rw [hstep]; exact ihc, ?_⟩
    intro r hr
    rw [hstep, ihw r hr, roomCountsFrom_succ]
    obtain ⟨hst2, hws2⟩ := hin hnd r hr
    rw [hws2, hst2]
    by_cases hc :
        (Simulate.generate_sensor_data (t + 1) (u tick r)).avg_person_count = st r
    · rw [if_pos hc, List.append_nil, hc]
      rw [show Simulate.dedupeWrites (st r)
            ((tick, st r) :: Simulate.roomCountsFrom (t + 1) u r (tick + 1) fuel)
          = Simulate.dedupeWrites (st r)
              (Simulate.roomCountsFrom (t + 1) u r (tick + 1) fuel) from by
        simp [Simulate.dedupeWrites]]
    · rw [if_neg hc]
      rw [show Simulate.dedupeWrites (st r)
            ((tick, (Simulate.generate_sensor_data (t + 1) (u tick r)).avg_person_count)
              :: Simulate.roomCountsFrom (t + 1) u r (tick + 1) fuel)
          = (tick, (Simulate.generate_sensor_data (t + 1) (u tick r)).avg_person_count)
              :: Simulate.dedupeWrites
                   (Simulate.generate_sensor_data (t + 1) (u tick r)).avg_person_count
                   (Simulate.roomCountsFrom (t + 1) u r (tick + 1) fuel) from by
        simp [Simulate.dedupeWrites, hc]]
      rw [List.append_assoc]
      rfl

theorem simLoop_no_crash (rooms : List String) (sinkOk : ℕ → String → Bool)
    (hok : ∀ a b, sinkOk a b = true) (u : ℕ → String → ℕ → ℚ) :
    ∀ (fuel tick : ℕ) (t : ℤ) (st : String → ℤ)
      (ws : List Simulate.WriteEvent),
      (Simulate.simLoop rooms sinkOk u fuel tick t st ws).crashed = none := by
  intro fuel
  induction fuel with
  | zero => intro tick t st ws; rfl
  | succ fuel ih =>
    intro tick t st ws
    obtain ⟨st2, ws2, hrun, -, -, -⟩ :=
      roomsLoop_ok_spec (sinkOk tick) (hok tick) (t + 1) (u tick) tick rooms st ws
    simp only [Simulate.simLoop]
    rw [hrun]
    exact ih (tick + 1) (t + 1) st2 ws2

theorem roomsLoop_state_spec (sinkOk : String → Bool) (t : ℤ)
    (u : String → ℕ → ℚ) (tick : ℕ) :
    ∀ (rs : List String) (st : String → ℤ) (ws : List Simulate.WriteEvent),
      (∀ r, st r = Simulate.lastWrittenCount r ws) →
      (∀ st2 ws2,
          Simulate.roomsLoop sinkOk t u tick rs st ws = .ok (st2, ws2) →
          (∀ r, st2 r = Simulate.lastWrittenCount r ws2)
          ∧ (∀ e, e ∈ ws2 → e ∈ ws ∨ e.1 = tick))
      ∧ (∀ st2 ws2 rc,
          Simulate.roomsLoop sinkOk t u tick rs st ws = .error (st2, ws2, rc) →
          (∀ r, st2 r = Simulate.lastWrittenCount r ws2)
          ∧ (∀ e, e ∈ ws2 → e ∈ ws ∨ e.1 = tick)) := by
  intro rs
  induction rs with
  | nil =>
    intro st ws hst
    constructor
    · intro st2 ws2 h
      obtain ⟨rfl, rfl⟩ : st = st2 ∧ ws = ws2 := by
        simpa [Simulate.roomsLoop] using h
      exact ⟨hst, fun e he => Or.inl he⟩
    · intro st2 ws2 rc h
      exact absurd h (by simp [Simulate.roomsLoop])
  | cons r0 rest ih =>
    intro st ws hst
    by_cases hch :
        (Simulate.generate_sensor_data t (u r0)).avg_person_count = st r0
    · have hstep := roomsLoop_cons_skip sinkOk t u tick r0 rest st ws hch
      constructor
      · intro st2 ws2 h
        rw [hstep] at h
        exact (ih st ws hst).1 st2 ws2 h
      · intro st2 ws2 rc h
        rw [hstep] at h
        exact (ih st ws hst).2 st2 ws2 rc h
    · by_cases hok : sinkOk r0 = true
      · have hstep := roomsLoop_cons_write sinkOk t u tick r0 rest st ws hch hok
        have hst2 : ∀ r,
            Simulate.stateUpdate st r0
                (Simulate.generate_sensor_data t (u r0)).avg_person_count r
              = Simulate.lastWrittenCount r
                  (ws ++ [(tick, r0, Simulate.generate_sensor_data t (u r0))]) := by
          intro r
          rw [lastWrittenCount_append_one]
          by_cases hr : r0 = r
          · subst hr; simp [Simulate.stateUpdate]
          · have hr2 : r ≠ r0 := fun h => hr h.symm
            simp [Simulate.stateUpdate, hr2, hr, hst r]
        have hmem : ∀ e : Simulate.WriteEvent,
            e ∈ ws ++ [(tick, r0, Simulate.generate_sensor_data t (u r0))] →
            e ∈ ws ∨ e.1 = tick := by
          intro e he
          rcases List.mem_append.mp he with h1 | h2
          · exact Or.inl h1
          · right; rw [List.mem_singleton.mp h2]
        have ihr := ih
          (Simulate.stateUpdate st r0
            (Simulate.generate_sensor_data t (u r0)).avg_person_count)
          (ws ++ [(tick, r0, Simulate.generate_sensor_data t (u r0))]) hst2
        constructor
        · intro st2 ws2 h
          rw [hstep] at h
          obtain ⟨ha, hb⟩ := ihr.1 st2 ws2 h
          exact ⟨ha, fun e he => (hb e he).elim (fun hm => hmem e hm) Or.inr⟩
        · intro st2 ws2 rc h
          rw [hstep] at h
          obtain ⟨ha, hb⟩ := ihr.2 st2 ws2 rc h
          exact ⟨ha, fun e he => (hb e he).elim (fun hm => hmem e hm) Or.inr⟩
      · have hfail : sinkOk r0 = false := by
          cases hx : sinkOk r0
          · rfl
          · exact absurd hx hok
        have hstep := roomsLoop_cons_fail sinkOk t u tick r0 rest st ws hch hfail
        constructor
        · intro st2 ws2 h
          rw [hstep] at h
          exact absurd h (by simp)
        · intro st2 ws2 rc h
          rw [hstep] at h
          obtain ⟨rfl, rfl, rfl⟩ : st = st2 ∧ ws = ws2 ∧ r0 = rc := by
            simpa using h
          exact ⟨hst, fun e he => Or.inl he⟩

theorem simLoop_state_spec (rooms : List String) (sinkOk : ℕ → String → Bool)
    (u : ℕ → String → ℕ → ℚ) :
    ∀ (fuel tick : ℕ) (t : ℤ) (st : String → ℤ)
      (ws : List Simulate.WriteEvent),
      (∀ r, st r = Simulate.lastWrittenCount r ws) →
      (∀ e, e ∈ ws → e.1 < tick) →
      (∀ r, (Simulate.simLoop rooms sinkOk u fuel tick t st ws).finalState r
          = Simulate.lastWrittenCount r
              (Simulate.simLoop rooms sinkOk u fuel tick t st ws).writes)
      ∧ (∀ T rc,
          (Simulate.simLoop rooms sinkOk u fuel tick t st ws).crashed
            = some (T, rc) →
          ∀ e, e ∈ (Simulate.simLoop rooms sinkOk u fuel tick t st ws).writes →
            e.1 ≤ T) := by
  intro fuel
  induction fuel with
  | zero =>
    intro tick t st ws hst hws
    refine ⟨hst, ?_⟩
    intro T rc h
    exact absurd h (by simp [Simulate.simLoop])
  | succ fuel ih =>
    intro tick t st ws hst hws
    rcases hres : Simulate.roomsLoop (sinkOk tick) (t + 1) (u tick) tick rooms st ws
      with ⟨st2, ws2, rc⟩ | ⟨st2, ws2⟩
    · -- an add call raised: the loop ends here
      have hstep : Simulate.simLoop rooms sinkOk u (fuel + 1) tick t st ws
          = ⟨ws2, st2, some (tick, rc)⟩ := by
        simp only [Simulate.simLoop]
        rw [hres]
      obtain ⟨ha, hb⟩ :=
        (roomsLoop_state_spec (sinkOk tick) (t + 1) (u tick) tick rooms st ws hst).2
          st2 ws2 rc hres
      rw [hstep]
      refine ⟨ha, ?_⟩
      intro T rc2 h e he
      obtain ⟨rfl, -⟩ : tick = T ∧ rc = rc2 := by simpa using h
      rcases hb e he with hin | htick
      · exact le_of_lt (hws e hin)
      · omega
    · have hstep : Simulate.simLoop rooms sinkOk u (fuel + 1) tick t st ws
          = Simulate.simLoop rooms sinkOk u fuel (tick + 1) (t + 1) st2 ws2 := by
        simp only [Simulate.simLoop]
        rw [hres]
      obtain ⟨ha, hb⟩ :=
        (roomsLoop_state_spec (sinkOk tick) (t + 1) (u tick) tick rooms st ws hst).1
          st2 ws2 hres
      have hws2 : ∀ e, e ∈ ws2 → e.1 < tick + 1 := by
        intro e he
        rcases hb e he with hin | htick
        · have := hws e hin; omega
        · omega
      rw [hstep]
      exact ih (tick + 1) (t + 1) st2 ws2 ha hws2

end SimulateRunLemmas

section SimulateClaimHelpers

theorem dedupeWrites_cons_ne (last : ℤ) (x : ℕ × ℤ) (l : List (ℕ × ℤ))
    (h : x.2 ≠ last) :
    Simulate.dedupeWrites last (x :: l) = x :: Simulate.dedupeWrites x.2 l := by
  obtain ⟨a, b⟩ := x
  simp only [Simulate.dedupeWrites]
  rw [if_pos h]

theorem roomCounts_eq_from (start : ℤ) (u : ℕ → String → ℕ → ℚ) (r : String)
    (n : ℕ) :
    Simulate.roomCounts start u r n = Simulate.roomCountsFrom start u r 1 n := by
  unfold Simulate.roomCounts Simulate.roomCountsFrom
  apply List.map_congr_left
  intro k _
  have h1 : k + 1 = 1 + k := by omega
  rw [h1]

theorem simCrashRun_eval :
    (Simulate.simulate_accelerated_time ["Lab"] 1014 Simulate.tape6
        (fun tick _ => tick != 1) 2).writes = []
    ∧ (Simulate.simulate_accelerated_time ["Lab"] 1014 Simulate.tape6
        (fun tick _ => tick != 1) 2).crashed = some (1, "Lab")
    ∧ (Simulate.simulate_accelerated_time ["Lab"] 1014 Simulate.tape6
        (fun tick _ => tick != 1) 2).finalState "Lab" = -1 := by
  have c1 : (Simulate.generate_sensor_data 1015
      (Simulate.tape6 1 "Lab")).avg_person_count = 5 := by
    norm_num [Simulate.generate_sensor_data, Simulate.occupancy, Simulate.tape6,
      pyHour, pyWeekday, pyRandint]
  simp only [Simulate.simulate_accelerated_time, Simulate.simLoop,
    Simulate.roomsLoop]
  norm_num [c1]

theorem tape6_bounds : ∀ a b m,
    0 ≤ Simulate.tape6 a b m ∧ Simulate.tape6 a b m < 1 := by
  intro a b m
  unfold Simulate.tape6
  split_ifs <;> constructor <;> norm_num

end SimulateClaimHelpers

/-- C4: in the live simulator, when every `add` call succeeds, the per-room
write sequence is exactly the change-deduplicated sequence of generated
person counts starting from the sentinel `-1` (a write happens exactly when
the generated count differs from the room's `EntityWriteState`, which is then
updated); since all draws in `[0,1)` give counts `≥ 0`, the first reading of
each room is always written; and for generated counts 5, 5, 5, 8, 8, 3 over
six ticks exactly the writes (tick 1, count 5), (tick 4, count 8),
(tick 6, count 3) occur. -/
theorem C4_change_detection :
    (∀ (rooms : List String) (start : ℤ) (u : ℕ → String → ℕ → ℚ)
        (sinkOk : ℕ → String → Bool) (n : ℕ),
        rooms.Nodup → (∀ a b, sinkOk a b = true) →
        ∀ r, r ∈ rooms →
          (Simulate.simulate_accelerated_time rooms start u sinkOk n).crashed
              = none
          ∧ Simulate.writesFor r
              (Simulate.simulate_accelerated_time rooms start u sinkOk n).writes
            = Simulate.dedupeWrites (-1) (Simulate.roomCounts start u r n)
          ∧ ((∀ a b m, 0 ≤ u a b m ∧ u a b m < 1) → 1 ≤ n →
              (Simulate.writesFor r
                (Simulate.simulate_accelerated_time rooms start u sinkOk n).writes).head?
                = some (1, (Simulate.generate_sensor_data (start + 1)
                    (u 1 r)).avg_person_count)))
    ∧ Simulate.writesFor "Lab"
        (Simulate.simulate_accelerated_time ["Lab"] 1014 Simulate.tape6
          (fun _ _ => true) 6).writes
      = [(1, 5), (4, 8), (6, 3)] := by
  constructor
  · intro rooms start u sinkOk n hnd hok r hr
    obtain ⟨hc, hw⟩ := simLoop_ok_spec rooms hnd sinkOk hok u n 1 start
      (fun _ => -1) []
    have hwr : Simulate.writesFor r
        (Simulate.simulate_accelerated_time rooms start u sinkOk n).writes
        = Simulate.dedupeWrites (-1) (Simulate.roomCounts start u r n) := by
      rw [Simulate.simulate_accelerated_time, hw r hr, roomCounts_eq_from]
      simp [Simulate.writesFor]
    refine ⟨hc, hwr, ?_⟩
    intro hu hn
    obtain ⟨m, rfl⟩ : ∃ m, n = m + 1 := ⟨n - 1, by omega⟩
    have hc1 : 0 ≤ (Simulate.generate_sensor_data (start + 1)
        (u 1 r)).avg_person_count := by
      have hcore := generate_core (start + 1) (u 1 r) (fun k => hu 1 r k)
      have hagree := (generate_agree (start + 1) (u 1 r)).1
      omega
    rw [hwr, roomCounts_eq_from, roomCountsFrom_succ,
      dedupeWrites_cons_ne _ _ _ (by simp only []; omega)]
    rfl
  · have c1 : (Simulate.generate_sensor_data 1015
        (Simulate.tape6 1 "Lab")).avg_person_count = 5 := by
      norm_num [Simulate.generate_sensor_data, Simulate.occupancy,
        Simulate.tape6, pyHour, pyWeekday, pyRandint]
    have c2 : (Simulate.generate_sensor_data 1016
        (Simulate.tape6 2 "Lab")).avg_person_count = 5 := by
      norm_num [Simulate.generate_sensor_data, Simulate.occupancy,
        Simulate.tape6, pyHour, pyWeekday, pyRandint]
    have c3 : (Simulate.generate_sensor_data 1017
        (Simulate.tape6 3 "Lab")).avg_person_count = 5 := by
      norm_num [Simulate.generate_sensor_data, Simulate.occupancy,
        Simulate.tape6, pyHour, pyWeekday, pyRandint]
    have c4 : (Simulate.generate_sensor_data 1018
        (Simulate.tape6 4 "Lab")).avg_person_count = 8 := by
      norm_num [Simulate.generate_sensor_data, Simulate.occupancy,
        Simulate.tape6, pyHour, pyWeekday, pyRandint]
    have c5 : (Simulate.generate_sensor_data 1019
        (Simulate.tape6 5 "Lab")).avg_person_count = 8 := by
      norm_num [Simulate.generate_sensor_data, Simulate.occupancy,
        Simulate.tape6, pyHour, pyWeekday, pyRandint]
    have c6 : (Simulate.generate_sensor_data 1020
        (Simulate.tape6 6 "Lab")).avg_person_count = 3 := by
      norm_num [Simulate.generate_sensor_data, Simulate.occupancy,
        Simulate.tape6, pyHour, pyWeekday, pyRandint]
    simp only [Simulate.simulate_accelerated_time, Simulate.simLoop,
      Simulate.roomsLoop, Simulate.writesFor]
    norm_num [c1, c2, c3, c4, c5, c6, Simulate.stateUpdate]

/-- C4 witness: the general statement applied to the concrete one-room
six-tick run with an always-succeeding sink. -/
theorem C4_change_detection_witness :
    (["Lab"] : List String).Nodup
    ∧ ((Simulate.simulate_accelerated_time ["Lab"] 1014 Simulate.tape6
          (fun _ _ => true) 6).crashed = none
      ∧ Simulate.writesFor "Lab"
          (Simulate.simulate_accelerated_time ["Lab"] 1014 Simulate.tape6
            (fun _ _ => true) 6).writes
        = Simulate.dedupeWrites (-1)
            (Simulate.roomCounts 1014 Simulate.tape6 "Lab" 6)
      ∧ (Simulate.writesFor "Lab"
          (Simulate.simulate_accelerated_time ["Lab"] 1014 Simulate.tape6
            (fun _ _ => true) 6).writes).head?
        = some (1, (Simulate.generate_sensor_data (1014 + 1)
            (Simulate.tape6 1 "Lab")).avg_person_count)) := by
  have hnd : (["Lab"] : List String).Nodup := by simp
  obtain ⟨ha, hb, hc⟩ := C4_change_detection.1 ["Lab"] 1014 Simulate.tape6
    (fun _ _ => true) 6 hnd (fun a b => rfl) "Lab" (by simp)
  exact ⟨hnd, ha, hb, hc tape6_bounds (by omega)⟩

/-- C5 counterexample: the claim says a failed single-record write is not
escalated and the loop proceeds to the next tick.  In the source the `try`
around the tick body catches only `KeyboardInterrupt`, so a failing
`db.collection(...).add` ends the whole loop.  Concretely: one room, two
requested ticks, the sink failing only at tick 1 (tick 2 would succeed), and
generated counts 5 then 8.  Under the claim the run would reach tick 2 and,
with the state still at the sentinel `-1`, write the count 8 there; instead
the run crashes at tick 1 with no writes at all, and the state still holds
`-1`. -/
theorem C5_counterexample_failure_escalates :
    (Simulate.simulate_accelerated_time ["Lab"] 1014 Simulate.tape6
        (fun tick _ => tick != 1) 2).crashed = some (1, "Lab")
    ∧ (Simulate.simulate_accelerated_time ["Lab"] 1014 Simulate.tape6
        (fun tick _ => tick != 1) 2).writes = []
    ∧ (Simulate.simulate_accelerated_time ["Lab"] 1014 Simulate.tape6
        (fun tick _ => tick != 1) 2).finalState "Lab" = -1 :=
  ⟨simCrashRun_eval.2.1, simCrashRun_eval.1, simCrashRun_eval.2.2⟩

/-- C5 amended: a failed single-record write DOES escalate — the uncaught
exception ends the simulator run at that tick, so no write of any later tick
exists — while the failed room's `EntityWriteState` is untouched: at every
point, including after a crash, the state of each room equals the count of
its last successful write (sentinel `-1` if none), so the pending change is
not recorded as written; with an always-succeeding sink the run never
crashes. -/
theorem C5_amended_failure_ends_run_state_intact
    (rooms : List String) (start : ℤ) (u : ℕ → String → ℕ → ℚ)
    (sinkOk : ℕ → String → Bool) (n : ℕ) :
    (∀ r, (Simulate.simulate_accelerated_time rooms start u sinkOk n).finalState r
        = Simulate.lastWrittenCount r
            (Simulate.simulate_accelerated_time rooms start u sinkOk n).writes)
    ∧ (∀ T rc,
        (Simulate.simulate_accelerated_time rooms start u sinkOk n).crashed
          = some (T, rc) →
        ∀ e, e ∈ (Simulate.simulate_accelerated_time rooms start u sinkOk n).writes →
          e.1 ≤ T)
    ∧ ((∀ a b, sinkOk a b = true) →
        (Simulate.simulate_accelerated_time rooms start u sinkOk n).crashed
          = none) := by
  have hinit : ∀ r, (fun _ : String => (-1 : ℤ)) r
      = Simulate.lastWrittenCount r ([] : List Simulate.WriteEvent) := by
    intro r
    simp [Simulate.lastWrittenCount]
  obtain ⟨ha, hb⟩ := simLoop_state_spec rooms sinkOk u n 1 start (fun _ => -1) []
    hinit (fun e he => absurd he (List.not_mem_nil e))
  exact ⟨ha, hb, fun hok => simLoop_no_crash rooms sinkOk hok u n 1 start _ _⟩

/-- C5 amended witness: applied to the concrete crashing run of the
counterexample configuration. -/
theorem C5_amended_failure_ends_run_witness :
    ((Simulate.simulate_accelerated_time ["Lab"] 1014 Simulate.tape6
        (fun tick _ => tick != 1) 2).crashed = some (1, "Lab"))
    ∧ (∀ e, e ∈ (Simulate.simulate_accelerated_time ["Lab"] 1014 Simulate.tape6
        (fun tick _ => tick != 1) 2).writes → e.1 ≤ 1)
    ∧ ((Simulate.simulate_accelerated_time ["Lab"] 1014 Simulate.tape6
        (fun tick _ => tick != 1) 2).finalState "Lab"
      = Simulate.lastWrittenCount "Lab"
          (Simulate.simulate_accelerated_time ["Lab"] 1014 Simulate.tape6
            (fun tick _ => tick != 1) 2).writes) := by
  obtain ⟨ha, hb, -⟩ := C5_amended_failure_ends_run_state_intact ["Lab"] 1014
    Simulate.tape6 (fun tick _ => tick != 1) 2
  exact ⟨simCrashRun_eval.2.1, hb 1 "Lab" simCrashRun_eval.2.1, ha "Lab"⟩

section BackfillRunLemmas

theorem roomsPass_ok_spec (sink : ℕ → ℕ → Backfill.SinkResult)
    (hsink : ∀ b,
      (Backfill.commit_batch_with_retry (fun a => sink b a)).isCommitted = true)
    (batchSize : ℕ) (u : String → ℕ → ℚ) (t : ℤ) :
    ∀ (rs : List String) (batch : List Backfill.SensorData) (bIdx : ℕ)
      (gen subm : List Backfill.SensorData),
      gen = subm ++ batch →
      ∃ batch2 bIdx2 gen2 subm2,
        Backfill.roomsPass sink batchSize u t rs batch bIdx gen subm
          = .next batch2 bIdx2 gen2 subm2
        ∧ gen2 = subm2 ++ batch2
        ∧ gen2.length = gen.length + rs.length
        ∧ ∃ newRecs, gen2 = gen ++ newRecs ∧ ∀ d ∈ newRecs, d.timestamp = t := by
  intro rs
  induction rs with
  | nil =>
    intro batch bIdx gen subm hinv
    exact ⟨batch, bIdx, gen, subm, rfl, hinv, by simp, [], by simp,
      fun d hd => absurd hd (List.not_mem_nil d)⟩
  | cons room_id rest ih =>
    intro batch bIdx gen subm hinv
    have hts : ({ Backfill.generate_sensor_data t (u room_id) with
        room_id := some room_id } : Backfill.SensorData).timestamp = t := rfl
    by_cases hb : batchSize ≤ batch.length + 1
    · rcases hcom : Backfill.commit_batch_with_retry (fun a => sink bIdx a)
        with ⟨k, ds⟩ | ⟨k, ds⟩ | ⟨k, ds⟩
      · have hstep : Backfill.roomsPass sink batchSize u t (room_id :: rest)
            batch bIdx gen subm
            = Backfill.roomsPass sink batchSize u t rest [] (bIdx + 1)
                (gen ++ [{ Backfill.generate_sensor_data t (u room_id) with
                  room_id := some room_id }])
                (subm ++ (batch ++ [{ Backfill.generate_sensor_data t (u room_id) with
                  room_id := some room_id }])) := by
          simp only [Backfill.roomsPass, List.length_append,
            List.length_singleton]
          rw [if_pos hb, hcom]
        obtain ⟨batch2, bIdx2, gen2, subm2, hrun, hinv2, hlen, newRecs, hnr, htsr⟩ :=
          ih [] (bIdx + 1)
            (gen ++ [{ Backfill.generate_sensor_data t (u room_id) with
              room_id := some room_id }])
            (subm ++ (batch ++ [{ Backfill.generate_sensor_data t (u room_id) with
              room_id := some room_id }]))
            (by rw [hinv]; simp)
        refine ⟨batch2, bIdx2, gen2, subm2, hstep ▸ hrun, hinv2, ?_, ?_⟩
        · rw [hlen]; simp; omega
        · refine ⟨[{ Backfill.generate_sensor_data t (u room_id) with
            room_id := some room_id }] ++ newRecs, by rw [hnr]; simp, ?_⟩
          intro d hd
          rcases List.mem_append.mp hd with h1 | h2
          · rw [List.mem_singleton.mp h1]
            exact hts
          · exact htsr d h2
      · have := hsink bIdx
        rw [hcom] at this
        exact absurd this (by simp [Backfill.CommitOutcome.isCommitted])
      · have := hsink bIdx
        rw [hcom] at this
        exact absurd this (by simp [Backfill.CommitOutcome.isCommitted])
    · have hstep : Backfill.roomsPass sink batchSize u t (room_id :: rest)
          batch bIdx gen subm
          = Backfill.roomsPass sink batchSize u t rest
              (batch ++ [{ Backfill.generate_sensor_data t (u room_id) with
                room_id := some room_id }]) bIdx
              (gen ++ [{ Backfill.generate_sensor_data t (u room_id) with
                room_id := some room_id }]) subm := by
        simp only [Backfill.roomsPass, List.length_append,
          List.length_singleton]
        rw [if_neg hb]
      obtain ⟨batch2, bIdx2, gen2, subm2, hrun, hinv2, hlen, newRecs, hnr, htsr⟩ :=
        ih (batch ++ [{ Backfill.generate_sensor_data t (u room_id) with
              room_id := some room_id }]) bIdx
           (gen ++ [{ Backfill.generate_sensor_data t (u room_id) with
              room_id := some room_id }]) subm
           (by rw [hinv]; simp)
      refine ⟨batch2, bIdx2, gen2, subm2, hstep ▸ hrun, hinv2, ?_, ?_⟩
      · rw [hlen]; simp; omega
      · refine ⟨[{ Backfill.generate_sensor_data t (u room_id) with
          room_id := some room_id }] ++ newRecs, by rw [hnr]; simp, ?_⟩
        intro d hd
        rcases List.mem_append.mp hd with h1 | h2
        · rw [List.mem_singleton.mp h1]
          exact hts
        · exact htsr d h2

end BackfillRunLemmas

theorem backfillLoop_noguard (sink : ℕ → ℕ → Backfill.SinkResult)
    (batchSize : ℕ) (rooms : List String) (u : ℤ → String → ℕ → ℚ)
    (now I : ℤ) (fuel : ℕ) (current : ℤ) (hng : ¬ current < now)
    (batch : List Backfill.SensorData) (bIdx : ℕ)
    (gen subm : List Backfill.SensorData) :
    Backfill.backfillLoop sink batchSize rooms u now I fuel current batch bIdx
        gen subm
      = Backfill.finishTrailing sink batch bIdx gen subm := by
  cases fuel with
  | zero =>
    simp only [Backfill.backfillLoop]
    rw [if_neg hng]
  | succ fuel =>
    simp only [Backfill.backfillLoop]
    rw [if_neg hng]

theorem backfillLoop_ok_spec (sink : ℕ → ℕ → Backfill.SinkResult)
    (hsink : ∀ b,
      (Backfill.commit_batch_with_retry (fun a => sink b a)).isCommitted = true)
    (batchSize : ℕ) (rooms : List String) (u : ℤ → String → ℕ → ℚ)
    (now I : ℤ) (hI : 0 < I) :
    ∀ (k fuel : ℕ), k ≤ fuel →
    ∀ (current : ℤ), current = now - k * I →
    ∀ (batch : List Backfill.SensorData) (bIdx : ℕ)
      (gen subm : List Backfill.SensorData),
      gen = subm ++ batch →
      (Backfill.backfillLoop sink batchSize rooms u now I fuel current batch
          bIdx gen subm).outcome = .completed
      ∧ (Backfill.backfillLoop sink batchSize rooms u now I fuel current batch
          bIdx gen subm).generated.length = gen.length + k * rooms.length
      ∧ (Backfill.backfillLoop sink batchSize rooms u now I fuel current batch
          bIdx gen subm).submitted
        = (Backfill.backfillLoop sink batchSize rooms u now I fuel current
            batch bIdx gen subm).generated := by
  intro k
  induction k with
  | zero =>
    intro fuel _ current hcur batch bIdx gen subm hinv
    have hng : ¬ current < now := by
      push_cast at hcur
      omega
    rw [backfillLoop_noguard sink batchSize rooms u now I fuel current hng]
    unfold Backfill.finishTrailing
    by_cases hemp : batch.isEmpty
    · have hb : batch = [] := List.isEmpty_iff.mp hemp
      rw [if_pos hemp]
      refine ⟨rfl, by simp, ?_⟩
      rw [hb, List.append_nil] at hinv
      simp [hinv]
    · rw [if_neg hemp]
      rcases hcom : Backfill.commit_batch_with_retry (fun a => sink bIdx a)
        with ⟨k0, ds⟩ | ⟨k0, ds⟩ | ⟨k0, ds⟩
      · exact ⟨rfl, by simp, by simp [hinv]⟩
      · have := hsink bIdx
        rw [hcom] at this
        exact absurd this (by simp [Backfill.CommitOutcome.isCommitted])
      · have := hsink bIdx
        rw [hcom] at this
        exact absurd this (by simp [Backfill.CommitOutcome.isCommitted])
  | succ k ihk =>
    intro fuel hk current hcur batch bIdx gen subm hinv
    obtain ⟨fuel2, rfl⟩ : ∃ f, fuel = f + 1 := ⟨fuel - 1, by omega⟩
    have hlt : current < now := by
      rw [hcur]
      have h1 : (0 : ℤ) < ((k : ℤ) + 1) * I :=
        mul_pos (by positivity) hI
      push_cast
      omega
    obtain ⟨batch2, bIdx2, gen2, subm2, hrun, hinv2, hlen, -⟩ :=
      roomsPass_ok_spec sink hsink batchSize (u current) current rooms batch
        bIdx gen subm hinv
    have hstep : Backfill.backfillLoop sink batchSize rooms u now I (fuel2 + 1)
        current batch bIdx gen subm
        = Backfill.backfillLoop sink batchSize rooms u now I fuel2 (current + I)
            batch2 bIdx2 gen2 subm2 := by
      simp only [Backfill.backfillLoop]
      rw [if_pos hlt, hrun]
    have hcur2 : current + I = now - k * I := by
      rw [hcur]
      push_cast
      ring
    obtain ⟨ho, hl, hs⟩ := ihk fuel2 (by omega) (current + I) hcur2 batch2
      bIdx2 gen2 subm2 hinv2
    rw [hstep]
    refine ⟨ho, ?_, hs⟩
    rw [hl, hlen]
    ring

/-- C7: when every batch commit succeeds, the backfill run completes and the
number of records generated — all of which are also submitted — equals
(horizon divided by the sampling interval) times the number of entities; in
particular 24 ticks of a 1-day horizon at 60-minute intervals over 2 rooms
give 48 records. -/
theorem C7_backfill_total_count (sink : ℕ → ℕ → Backfill.SinkResult)
    (batchSize : ℕ) (rooms : List String) (u : ℤ → String → ℕ → ℚ)
    (now H I : ℤ)
    (hsink : ∀ b,
      (Backfill.commit_batch_with_retry (fun a => sink b a)).isCommitted = true)
    (hI : 0 < I) (hH : 0 ≤ H) (hdvd : I ∣ H) :
    (Backfill.backfill_historical_data sink batchSize rooms u now H I).outcome
        = .completed
    ∧ (Backfill.backfill_historical_data sink batchSize rooms u now H
        I).generated.length = (H / I).toNat * rooms.length
    ∧ (Backfill.backfill_historical_data sink batchSize rooms u now H
        I).submitted
      = (Backfill.backfill_historical_data sink batchSize rooms u now H
          I).generated := by
  have hqnn : 0 ≤ H / I := Int.ediv_nonneg hH (le_of_lt hI)
  have hkI : ((H / I).toNat : ℤ) * I = H := by
    rw [Int.toNat_of_nonneg hqnn]
    exact Int.ediv_mul_cancel hdvd
  have hkfuel : (H / I).toNat ≤ H.toNat := by
    have h1 : H / I ≤ H := Int.ediv_le_self I hH
    omega
  have hcur : now - H = now - ((H / I).toNat : ℤ) * I := by rw [hkI]
  obtain ⟨ho, hl, hs⟩ := backfillLoop_ok_spec sink hsink batchSize rooms u now
    I hI (H / I).toNat H.toNat hkfuel (now - H) hcur [] 0 [] [] rfl
  exact ⟨ho, by simpa using hl, hs⟩

/-- C7 witness: horizon 1440 minutes, interval 60 minutes, two rooms, an
always-succeeding sink: the run completes with exactly 48 records generated
and submitted. -/
theorem C7_backfill_total_count_witness :
    (∀ b : ℕ, (Backfill.commit_batch_with_retry
        (fun a : ℕ =>
          (fun _ _ : ℕ => Backfill.SinkResult.success) b a)).isCommitted
          = true)
    ∧ (Backfill.backfill_historical_data (fun _ _ => .success) 50 ["A", "B"]
        (fun _ _ _ => 0) 1440 1440 60).outcome = .completed
    ∧ (Backfill.backfill_historical_data (fun _ _ => .success) 50 ["A", "B"]
        (fun _ _ _ => 0) 1440 1440 60).generated.length = 48
    ∧ (Backfill.backfill_historical_data (fun _ _ => .success) 50 ["A", "B"]
        (fun _ _ _ => 0) 1440 1440 60).submitted
      = (Backfill.backfill_historical_data (fun _ _ => .success) 50 ["A", "B"]
          (fun _ _ _ => 0) 1440 1440 60).generated := by
  obtain ⟨ho, hl, hs⟩ := C7_backfill_total_count (fun _ _ => .success) 50
    ["A", "B"] (fun _ _ _ => 0) 1440 1440 60 (fun b => rfl) (by norm_num)
    (by norm_num) (by norm_num)
  refine ⟨fun b => rfl, ho, ?_, hs⟩
  rw [hl]
  decide

section BackfillOrderLemmas

theorem finishTrailing_generated (sink : ℕ → ℕ → Backfill.SinkResult)
    (batch : List Backfill.SensorData) (bIdx : ℕ)
    (gen subm : List Backfill.SensorData) :
    (Backfill.finishTrailing sink batch bIdx gen subm).generated = gen := by
  unfold Backfill.finishTrailing
  by_cases hemp : batch.isEmpty
  · rw [if_pos hemp]
  · rw [if_neg hemp]
    rcases Backfill.commit_batch_with_retry (fun a => sink bIdx a)
      with ⟨k, ds⟩ | ⟨k, ds⟩ | ⟨k, ds⟩ <;> rfl

theorem roomsPass_gen_shape (sink : ℕ → ℕ → Backfill.SinkResult)
    (batchSize : ℕ) (u : String → ℕ → ℚ) (t : ℤ) :
    ∀ (rs : List String) (batch : List Backfill.SensorData) (bIdx : ℕ)
      (gen subm : List Backfill.SensorData),
      ∃ newRecs,
        (Backfill.roomsPass sink batchSize u t rs batch bIdx gen subm).genList
          = gen ++ newRecs
        ∧ ∀ d ∈ newRecs, d.timestamp = t := by
  intro rs
  induction rs with
  | nil =>
    intro batch bIdx gen subm
    exact ⟨[], by simp [Backfill.roomsPass, Backfill.RoomsOut.genList],
      fun d hd => absurd hd (List.not_mem_nil d)⟩
  | cons room_id rest ih =>
    intro batch bIdx gen subm
    have hts : ({ Backfill.generate_sensor_data t (u room_id) with
        room_id := some room_id } : Backfill.SensorData).timestamp = t := rfl
    by_cases hb : batchSize ≤ batch.length + 1
    · rcases hcom : Backfill.commit_batch_with_retry (fun a => sink bIdx a)
        with ⟨k, ds⟩ | ⟨k, ds⟩ | ⟨k, ds⟩
      · obtain ⟨newRecs, hnr, htsr⟩ := ih [] (bIdx + 1)
          (gen ++ [{ Backfill.generate_sensor_data t (u room_id) with
            room_id := some room_id }])
          (subm ++ (batch ++ [{ Backfill.generate_sensor_data t (u room_id) with
            room_id := some room_id }]))
        refine ⟨[{ Backfill.generate_sensor_data t (u room_id) with
          room_id := some room_id }] ++ newRecs, ?_, ?_⟩
        · rw [show (Backfill.roomsPass sink batchSize u t (room_id :: rest)
              batch bIdx gen subm)
              = Backfill.roomsPass sink batchSize u t rest [] (bIdx + 1)
                  (gen ++ [{ Backfill.generate_sensor_data t (u room_id) with
                    room_id := some room_id }])
                  (subm ++ (batch ++
                    [{ Backfill.generate_sensor_data t (u room_id) with
                      room_id := some room_id }])) from by
            simp only [Backfill.roomsPass, List.length_append,
              List.length_singleton]
            rw [if_pos hb, hcom]]
          rw [hnr, List.append_assoc]
        · intro d hd
          rcases List.mem_append.mp hd with h1 | h2
          · rw [List.mem_singleton.mp h1]
            exact hts
          · exact htsr d h2
      · refine ⟨[{ Backfill.generate_sensor_data t (u room_id) with
          room_id := some room_id }], ?_, ?_⟩
        · rw [show (Backfill.roomsPass sink batchSize u t (room_id :: rest)
              batch bIdx gen subm)
              = .stopExhausted
                  (gen ++ [{ Backfill.generate_sensor_data t (u room_id) with
                    room_id := some room_id }]) subm from by
            simp only [Backfill.roomsPass, List.length_append,
              List.length_singleton]
            rw [if_pos hb, hcom]]
          rfl
        · intro d hd
          rw [List.mem_singleton.mp hd]
          exact hts
      · refine ⟨[{ Backfill.generate_sensor_data t (u room_id) with
          room_id := some room_id }], ?_, ?_⟩
        · rw [show (Backfill.roomsPass sink batchSize u t (room_id :: rest)
              batch bIdx gen subm)
              = .stopFatal
                  (gen ++ [{ Backfill.generate_sensor_data t (u room_id) with
                    room_id := some room_id }]) subm from by
            simp only [Backfill.roomsPass, List.length_append,
              List.length_singleton]
            rw [if_pos hb, hcom]]
          rfl
        · intro d hd
          rw [List.mem_singleton.mp hd]
          exact hts
    · obtain ⟨newRecs, hnr, htsr⟩ := ih
        (batch ++ [{ Backfill.generate_sensor_data t (u room_id) with
          room_id := some room_id }]) bIdx
        (gen ++ [{ Backfill.generate_sensor_data t (u room_id) with
          room_id := some room_id }]) subm
      refine ⟨[{ Backfill.generate_sensor_data t (u room_id) with
        room_id := some room_id }] ++ newRecs, ?_, ?_⟩
      · rw [show (Backfill.roomsPass sink batchSize u t (room_id :: rest)
            batch bIdx gen subm)
            = Backfill.roomsPass sink batchSize u t rest
                (batch ++ [{ Backfill.generate_sensor_data t (u room_id) with
                  room_id := some room_id }]) bIdx
                (gen ++ [{ Backfill.generate_sensor_data t (u room_id) with
                  room_id := some room_id }]) subm from by
          simp only [Backfill.roomsPass, List.length_append,
            List.length_singleton]
          rw [if_neg hb]]
        rw [hnr, List.append_assoc]
      · intro d hd
        rcases List.mem_append.mp hd with h1 | h2
        · rw [List.mem_singleton.mp h1]
          exact hts
        · exact htsr d h2

theorem chain_le_of_const (m : List ℤ) (c : ℤ) (hm : ∀ x ∈ m, x = c) :
    List.Chain' (· ≤ ·) m := by
  induction m with
  | nil => exact List.chain'_nil
  | cons a m ihm =>
    rw [List.chain'_cons']
    refine ⟨?_, ihm (fun x hx => hm x (List.mem_cons_of_mem a hx))⟩
    intro y hy
    rw [hm a (List.mem_cons_self a m),
      hm y (List.mem_cons_of_mem a (List.mem_of_mem_head? hy))]

theorem chain_le_append_const (l : List ℤ) (c : ℤ) (m : List ℤ)
    (hl : List.Chain' (· ≤ ·) l) (hub : ∀ x ∈ l, x ≤ c)
    (hm : ∀ x ∈ m, x = c) :
    List.Chain' (· ≤ ·) (l ++ m) := by
  rw [List.chain'_append]
  refine ⟨hl, chain_le_of_const m c hm, ?_⟩
  intro x hx y hy
  rw [hm y (List.mem_of_mem_head? hy)]
  exact hub x (List.mem_of_mem_getLast? hx)

theorem backfillLoop_sorted_spec (sink : ℕ → ℕ → Backfill.SinkResult)
    (batchSize : ℕ) (rooms : List String) (u : ℤ → String → ℕ → ℚ)
    (now I : ℤ) (hI : 0 ≤ I) :
    ∀ (fuel : ℕ) (current : ℤ) (batch : List Backfill.SensorData) (bIdx : ℕ)
      (gen subm : List Backfill.SensorData),
      List.Chain' (· ≤ ·) (gen.map (fun d => d.timestamp)) →
      (∀ d ∈ gen, d.timestamp ≤ current) →
      List.Chain' (· ≤ ·)
        ((Backfill.backfillLoop sink batchSize rooms u now I fuel current
          batch bIdx gen subm).generated.map (fun d => d.timestamp)) := by
  intro fuel
  induction fuel with
  | zero =>
    intro current batch bIdx gen subm hst hub
    simp only [Backfill.backfillLoop]
    by_cases hng : current < now
    · rw [if_pos hng]
      exact hst
    · rw [if_neg hng, finishTrailing_generated]
      exact hst
  | succ fuel ih =>
    intro current batch bIdx gen subm hst hub
    by_cases hng : current < now
    · rcases hres : Backfill.roomsPass sink batchSize (u current) current rooms
          batch bIdx gen subm with ⟨batch2, bIdx2, gen2, subm2⟩
        | ⟨gen2, subm2⟩ | ⟨gen2, subm2⟩
      · obtain ⟨newRecs, hnr, htsr⟩ := roomsPass_gen_shape sink batchSize
          (u current) current rooms batch bIdx gen subm
        rw [hres] at hnr
        have hgen2 : gen2 = gen ++ newRecs := hnr
        have hstep : Backfill.backfillLoop sink batchSize rooms u now I
            (fuel + 1) current batch bIdx gen subm
            = Backfill.backfillLoop sink batchSize rooms u now I fuel
                (current + I) batch2 bIdx2 gen2 subm2 := by
          simp only [Backfill.backfillLoop]
          rw [if_pos hng, hres]
        rw [hstep]
        apply ih
        · rw [hgen2, List.map_append]
          apply chain_le_append_const _ current
          · exact hst
          · intro x hx
            obtain ⟨d, hd, rfl⟩ := List.mem_map.mp hx
            exact hub d hd
          · intro x hx
            obtain ⟨d, hd, rfl⟩ := List.mem_map.mp hx
            exact htsr d hd
        · intro d hd
          rw [hgen2] at hd
          rcases List.mem_append.mp hd with h1 | h2
          · have := hub d h1; omega
          · have := htsr d h2; omega
      · obtain ⟨newRecs, hnr, htsr⟩ := roomsPass_gen_shape sink batchSize
          (u current) current rooms batch bIdx gen subm
        rw [hres] at hnr
        have hstep : Backfill.backfillLoop sink batchSize rooms u now I
            (fuel + 1) current batch bIdx gen subm
            = ⟨.abortedExhausted, gen2, subm2⟩ := by
          simp only [Backfill.backfillLoop]
          rw [if_pos hng, hres]
        rw [hstep]
        show List.Chain' (· ≤ ·) (gen2.map (fun d => d.timestamp))
        rw [show gen2 = gen ++ newRecs from hnr, List.map_append]
        apply chain_le_append_const _ current
        · exact hst
        · intro x hx
          obtain ⟨d, hd, rfl⟩ := List.mem_map.mp hx
          exact hub d hd
        · intro x hx
          obtain ⟨d, hd, rfl⟩ := List.mem_map.mp hx
          exact htsr d hd
      · obtain ⟨newRecs, hnr, htsr⟩ := roomsPass_gen_shape sink batchSize
          (u current) current rooms batch bIdx gen subm
        rw [hres] at hnr
        have hstep : Backfill.backfillLoop sink batchSize rooms u now I
            (fuel + 1) current batch bIdx gen subm
            = ⟨.abortedFatal, gen2, subm2⟩ := by
          simp only [Backfill.backfillLoop]
          rw [if_pos hng, hres]
        rw [hstep]
        show List.Chain' (· ≤ ·) (gen2.map (fun d => d.timestamp))
        rw [show gen2 = gen ++ newRecs from hnr, List.map_append]
        apply chain_le_append_const _ current
        · exact hst
        · intro x hx
          obtain ⟨d, hd, rfl⟩ := List.mem_map.mp hx
          exact hub d hd
        · intro x hx
          obtain ⟨d, hd, rfl⟩ := List.mem_map.mp hx
          exact htsr d hd
    · have hstep : Backfill.backfillLoop sink batchSize rooms u now I
          (fuel + 1) current batch bIdx gen subm
          = Backfill.finishTrailing sink batch bIdx gen subm := by
        simp only [Backfill.backfillLoop]
        rw [if_neg hng]
      rw [hstep, finishTrailing_generated]
      exact hst

end BackfillOrderLemmas

set_option maxRecDepth 4000 in
/-- C8 counterexample: with two rooms, both records of one tick carry the
same timestamp, so the submitted sequence is NOT strictly increasing.
Concretely: horizon 60 minutes, interval 60 minutes, rooms A and B, every
commit succeeding — the run generates exactly two records, both with
timestamp `now - 60 = 0`. -/
theorem C8_counterexample_equal_timestamps :
    ¬ List.Chain' (· < ·)
      ((Backfill.backfill_historical_data (fun _ _ => .success) 50 ["A", "B"]
        (fun _ _ _ => 0) 60 60 60).generated.map (fun d => d.timestamp)) := by
  have hts : ∀ u : ℕ → ℚ,
      (Backfill.generate_sensor_data 0 u).timestamp = 0 := fun _ => rfl
  have heval : (Backfill.backfill_historical_data (fun _ _ => .success) 50
      ["A", "B"] (fun _ _ _ => 0) 60 60 60).generated.map
        (fun d => d.timestamp)
      = [0, 0] := by
    simp only [Backfill.backfill_historical_data, Int.toNat_ofNat]
    norm_num [Backfill.backfillLoop, Backfill.roomsPass,
      Backfill.finishTrailing, Backfill.commit_batch_with_retry,
      Backfill.commitAttempts, Backfill.max_retries, hts]
  rw [heval]
  norm_num [List.chain'_cons]

/-- C8 amended: the records generated and submitted by the backfill driver
are in non-decreasing (not strictly increasing) timestamp order — records of
the same tick share a timestamp; the order is strict only between ticks. -/
theorem C8_amended_nondecreasing_timestamps
    (sink : ℕ → ℕ → Backfill.SinkResult) (batchSize : ℕ)
    (rooms : List String) (u : ℤ → String → ℕ → ℚ) (now H I : ℤ)
    (hI : 0 ≤ I) :
    List.Chain' (· ≤ ·)
      ((Backfill.backfill_historical_data sink batchSize rooms u now H
        I).generated.map (fun d => d.timestamp)) := by
  unfold Backfill.backfill_historical_data
  apply backfillLoop_sorted_spec sink batchSize rooms u now I hI
  · exact List.chain'_nil
  · intro d hd
    exact absurd hd (List.not_mem_nil d)

/-- C8 amended witness: the two-room one-tick run is (weakly) sorted. -/
theorem C8_amended_nondecreasing_witness :
    (0 : ℤ) ≤ 60
    ∧ List.Chain' (· ≤ ·)
      ((Backfill.backfill_historical_data (fun _ _ => .success) 50 ["A", "B"]
        (fun _ _ _ => 0) 60 60 60).generated.map (fun d => d.timestamp)) :=
  ⟨by norm_num, C8_amended_nondecreasing_timestamps _ 50 ["A", "B"] _ 60 60 60
    (by norm_num)⟩

section BackfillFailLemmas

theorem finishTrailing_bound (sink : ℕ → ℕ → Backfill.SinkResult)
    (batchSize N : ℕ)
    (hN : (Backfill.commit_batch_with_retry
      (fun a => sink N a)).isCommitted = false)
    (batch gen subm : List Backfill.SensorData) (bIdx : ℕ)
    (hgen : gen.length = bIdx * batchSize + batch.length)
    (hbatch : batch.length < batchSize)
    (hsubm : subm.length = bIdx * batchSize)
    (hle : bIdx ≤ N) :
    (Backfill.finishTrailing sink batch bIdx gen subm).generated.length
        ≤ (N + 1) * batchSize
    ∧ (Backfill.finishTrailing sink batch bIdx gen subm).submitted.length
        ≤ N * batchSize := by
  have hmul : bIdx * batchSize ≤ N * batchSize :=
    Nat.mul_le_mul_right batchSize hle
  have hgenb : gen.length ≤ (N + 1) * batchSize := by nlinarith
  unfold Backfill.finishTrailing
  by_cases hemp : batch.isEmpty
  · rw [if_pos hemp]
    exact ⟨hgenb, by rw [hsubm] at *; exact hmul⟩
  · rw [if_neg hemp]
    rcases hcom : Backfill.commit_batch_with_retry (fun a => sink bIdx a)
      with ⟨k, ds⟩ | ⟨k, ds⟩ | ⟨k, ds⟩
    · have hne : bIdx ≠ N := by
        intro h
        rw [h] at hcom
        rw [hcom] at hN
        exact absurd hN (by simp [Backfill.CommitOutcome.isCommitted])
      have hlt : bIdx + 1 ≤ N := by omega
      have hmul2 : (bIdx + 1) * batchSize ≤ N * batchSize :=
        Nat.mul_le_mul_right batchSize hlt
      refine ⟨hgenb, ?_⟩
      show (subm ++ batch).length ≤ N * batchSize
      rw [List.length_append, hsubm]
      nlinarith
    · exact ⟨hgenb, by rw [hsubm] at *; exact hmul⟩
    · exact ⟨hgenb, by rw [hsubm] at *; exact hmul⟩

theorem roomsPass_fail_spec (sink : ℕ → ℕ → Backfill.SinkResult)
    (batchSize N : ℕ) (hbs : 0 < batchSize)
    (hb : ∀ b, b < N → (Backfill.commit_batch_with_retry
      (fun a => sink b a)).isCommitted = true)
    (hN : (Backfill.commit_batch_with_retry
      (fun a => sink N a)).isCommitted = false)
    (u : String → ℕ → ℚ) (t : ℤ) :
    ∀ (rs : List String) (batch : List Backfill.SensorData) (bIdx : ℕ)
      (gen subm : List Backfill.SensorData),
      gen.length = bIdx * batchSize + batch.length →
      batch.length < batchSize →
      subm.length = bIdx * batchSize →
      bIdx ≤ N →
      (∀ batch2 bIdx2 gen2 subm2,
          Backfill.roomsPass sink batchSize u t rs batch bIdx gen subm
            = .next batch2 bIdx2 gen2 subm2 →
          gen2.length = bIdx2 * batchSize + batch2.length
          ∧ batch2.length < batchSize
          ∧ subm2.length = bIdx2 * batchSize
          ∧ bIdx2 ≤ N)
      ∧ (∀ gen2 subm2,
          Backfill.roomsPass sink batchSize u t rs batch bIdx gen subm
              = .stopExhausted gen2 subm2
            ∨ Backfill.roomsPass sink batchSize u t rs batch bIdx gen subm
              = .stopFatal gen2 subm2 →
          gen2.length = (N + 1) * batchSize
          ∧ subm2.length = N * batchSize) := by
  intro rs
  induction rs with
  | nil =>
    intro batch bIdx gen subm hgen hbatch hsubm hle
    constructor
    · intro batch2 bIdx2 gen2 subm2 h
      obtain ⟨rfl, rfl, rfl, rfl⟩ :
          batch = batch2 ∧ bIdx = bIdx2 ∧ gen = gen2 ∧ subm = subm2 := by
        simpa [Backfill.roomsPass] using h
      exact ⟨hgen, hbatch, hsubm, hle⟩
    · intro gen2 subm2 h
      rcases h with h | h <;> exact absurd h (by simp [Backfill.roomsPass])
  | cons room_id rest ih =>
    intro batch bIdx gen subm hgen hbatch hsubm hle
    by_cases hfull : batchSize ≤ batch.length + 1
    · have hbl : batch.length + 1 = batchSize := by omega
      rcases hcom : Backfill.commit_batch_with_retry (fun a => sink bIdx a)
        with ⟨k, ds⟩ | ⟨k, ds⟩ | ⟨k, ds⟩
      · -- the full batch committed; bIdx < N since batch N never commits
        have hne : bIdx ≠ N := by
          intro h
          rw [h] at hcom
          rw [hcom] at hN
          exact absurd hN (by simp [Backfill.CommitOutcome.isCommitted])
        have hstep : Backfill.roomsPass sink batchSize u t (room_id :: rest)
            batch bIdx gen subm
            = Backfill.roomsPass sink batchSize u t rest [] (bIdx + 1)
                (gen ++ [{ Backfill.generate_sensor_data t (u room_id) with
                  room_id := some room_id }])
                (subm ++ (batch ++
                  [{ Backfill.generate_sensor_data t (u room_id) with
                    room_id := some room_id }])) := by
          simp only [Backfill.roomsPass, List.length_append,
            List.length_singleton]
          rw [if_pos hfull, hcom]
        have hnext := ih [] (bIdx + 1)
          (gen ++ [{ Backfill.generate_sensor_data t (u room_id) with
            room_id := some room_id }])
          (subm ++ (batch ++
            [{ Backfill.generate_sensor_data t (u room_id) with
              room_id := some room_id }]))
          (by simp only [List.length_append, List.length_singleton,
                List.length_nil, Nat.add_zero]
              rw [hgen, Nat.add_assoc, hbl, add_one_mul])
          hbs
          (by simp only [List.length_append, List.length_singleton]
              rw [hsubm, hbl, add_one_mul])
          (by omega)
        constructor
        · intro batch2 bIdx2 gen2 subm2 h
          rw [hstep] at h
          exact hnext.1 batch2 bIdx2 gen2 subm2 h
        · intro gen2 subm2 h
          rw [hstep] at h
          exact hnext.2 gen2 subm2 h
      · -- exhaustion: possible only at batch N
        have heq : bIdx = N := by
          by_contra hne
          have := hb bIdx (by omega)
          rw [hcom] at this
          exact absurd this (by simp [Backfill.CommitOutcome.isCommitted])
        have hstep : Backfill.roomsPass sink batchSize u t (room_id :: rest)
            batch bIdx gen subm
            = .stopExhausted
                (gen ++ [{ Backfill.generate_sensor_data t (u room_id) with
                  room_id := some room_id }]) subm := by
          simp only [Backfill.roomsPass, List.length_append,
            List.length_singleton]
          rw [if_pos hfull, hcom]
        constructor
        · intro batch2 bIdx2 gen2 subm2 h
          rw [hstep] at h
          exact absurd h (by simp)
        · intro gen2 subm2 h
          rcases h with h | h
          · rw [hstep] at h
            obtain ⟨rfl, rfl⟩ : gen ++
                [{ Backfill.generate_sensor_data t (u room_id) with
                  room_id := some room_id }] = gen2 ∧ subm = subm2 := by
              simpa using h
            refine ⟨?_, by rw [hsubm, heq]⟩
            simp only [List.length_append, List.length_singleton]
            rw [hgen, heq, add_one_mul, Nat.add_assoc, hbl]
          · rw [hstep] at h
            exact absurd h (by simp)
      · have heq : bIdx = N := by
          by_contra hne
          have := hb bIdx (by omega)
          rw [hcom] at this
          exact absurd this (by simp [Backfill.CommitOutcome.isCommitted])
        have hstep : Backfill.roomsPass sink batchSize u t (room_id :: rest)
            batch bIdx gen subm
            = .stopFatal
                (gen ++ [{ Backfill.generate_sensor_data t (u room_id) with
                  room_id := some room_id }]) subm := by
          simp only [Backfill.roomsPass, List.length_append,
            List.length_singleton]
          rw [if_pos hfull, hcom]
        constructor
        · intro batch2 bIdx2 gen2 subm2 h
          rw [hstep] at h
          exact absurd h (by simp)
        · intro gen2 subm2 h
          rcases h with h | h
          · rw [hstep] at h
            exact absurd h (by simp)
          · rw [hstep] at h
            obtain ⟨rfl, rfl⟩ : gen ++
                [{ Backfill.generate_sensor_data t (u room_id) with
                  room_id := some room_id }] = gen2 ∧ subm = subm2 := by
              simpa using h
            refine ⟨?_, by rw [hsubm, heq]⟩
            simp only [List.length_append, List.length_singleton]
            rw [hgen, heq, add_one_mul, Nat.add_assoc, hbl]
    · have hstep : Backfill.roomsPass sink batchSize u t (room_id :: rest)
          batch bIdx gen subm
          = Backfill.roomsPass sink batchSize u t rest
              (batch ++ [{ Backfill.generate_sensor_data t (u room_id) with
                room_id := some room_id }]) bIdx
              (gen ++ [{ Backfill.generate_sensor_data t (u room_id) with
                room_id := some room_id }]) subm := by
        simp only [Backfill.roomsPass, List.length_append,
          List.length_singleton]
        rw [if_neg hfull]
      have hnext := ih
        (batch ++ [{ Backfill.generate_sensor_data t (u room_id) with
          room_id := some room_id }]) bIdx
        (gen ++ [{ Backfill.generate_sensor_data t (u room_id) with
          room_id := some room_id }]) subm
        (by simp only [List.length_append, List.length_singleton]; omega)
        (by simp only [List.length_append, List.length_singleton]; omega)
        hsubm hle
      constructor
      · intro batch2 bIdx2 gen2 subm2 h
        rw [hstep] at h
        exact hnext.1 batch2 bIdx2 gen2 subm2 h
      · intro gen2 subm2 h
        rw [hstep] at h
        exact hnext.2 gen2 subm2 h

end BackfillFailLemmas

theorem backfillLoop_fail_spec (sink : ℕ → ℕ → Backfill.SinkResult)
    (batchSize N : ℕ) (hbs : 0 < batchSize)
    (hb : ∀ b, b < N → (Backfill.commit_batch_with_retry
      (fun a => sink b a)).isCommitted = true)
    (hN : (Backfill.commit_batch_with_retry
      (fun a => sink N a)).isCommitted = false)
    (rooms : List String) (u : ℤ → String → ℕ → ℚ) (now I : ℤ) :
    ∀ (fuel : ℕ) (current : ℤ) (batch : List Backfill.SensorData) (bIdx : ℕ)
      (gen subm : List Backfill.SensorData),
      gen.length = bIdx * batchSize + batch.length →
      batch.length < batchSize →
      subm.length = bIdx * batchSize →
      bIdx ≤ N →
      (Backfill.backfillLoop sink batchSize rooms u now I fuel current batch
          bIdx gen subm).generated.length ≤ (N + 1) * batchSize
      ∧ (Backfill.backfillLoop sink batchSize rooms u now I fuel current batch
          bIdx gen subm).submitted.length ≤ N * batchSize := by
  intro fuel
  induction fuel with
  | zero =>
    intro current batch bIdx gen subm hgen hbatch hsubm hle
    simp only [Backfill.backfillLoop]
    by_cases hng : current < now
    · rw [if_pos hng]
      have hmul : bIdx * batchSize ≤ N * batchSize :=
        Nat.mul_le_mul_right batchSize hle
      constructor
      · show gen.length ≤ (N + 1) * batchSize
        nlinarith
      · show subm.length ≤ N * batchSize
        rw [hsubm]
        exact hmul
    · rw [if_neg hng]
      exact finishTrailing_bound sink batchSize N hN batch gen subm bIdx hgen
        hbatch hsubm hle
  | succ fuel ih =>
    intro current batch bIdx gen subm hgen hbatch hsubm hle
    by_cases hng : current < now
    · rcases hres : Backfill.roomsPass sink batchSize (u current) current rooms
          batch bIdx gen subm with ⟨batch2, bIdx2, gen2, subm2⟩
        | ⟨gen2, subm2⟩ | ⟨gen2, subm2⟩
      · have hstep : Backfill.backfillLoop sink batchSize rooms u now I
            (fuel + 1) current batch bIdx gen subm
            = Backfill.backfillLoop sink batchSize rooms u now I fuel
                (current + I) batch2 bIdx2 gen2 subm2 := by
          simp only [Backfill.backfillLoop]
          rw [if_pos hng, hres]
        obtain ⟨h1, h2, h3, h4⟩ := (roomsPass_fail_spec sink batchSize N hbs
          hb hN (u current) current rooms batch bIdx gen subm hgen hbatch
          hsubm hle).1 batch2 bIdx2 gen2 subm2 hres
        rw [hstep]
        exact ih (current + I) batch2 bIdx2 gen2 subm2 h1 h2 h3 h4
      · have hstep : Backfill.backfillLoop sink batchSize rooms u now I
            (fuel + 1) current batch bIdx gen subm
            = ⟨.abortedExhausted, gen2, subm2⟩ := by
          simp only [Backfill.backfillLoop]
          rw [if_pos hng, hres]
        obtain ⟨h1, h2⟩ := (roomsPass_fail_spec sink batchSize N hbs hb hN
          (u current) current rooms batch bIdx gen subm hgen hbatch hsubm
          hle).2 gen2 subm2 (Or.inl hres)
        rw [hstep]
        exact ⟨le_of_eq h1, le_of_eq h2⟩
      · have hstep : Backfill.backfillLoop sink batchSize rooms u now I
            (fuel + 1) current batch bIdx gen subm
            = ⟨.abortedFatal, gen2, subm2⟩ := by
          simp only [Backfill.backfillLoop]
          rw [if_pos hng, hres]
        obtain ⟨h1, h2⟩ := (roomsPass_fail_spec sink batchSize N hbs hb hN
          (u current) current rooms batch bIdx gen subm hgen hbatch hsubm
          hle).2 gen2 subm2 (Or.inr hres)
        rw [hstep]
        exact ⟨le_of_eq h1, le_of_eq h2⟩
    · have hstep : Backfill.backfillLoop sink batchSize rooms u now I
          (fuel + 1) current batch bIdx gen subm
          = Backfill.finishTrailing sink batch bIdx gen subm := by
        simp only [Backfill.backfillLoop]
        rw [if_neg hng]
      rw [hstep]
      exact finishTrailing_bound sink batchSize N hN batch gen subm bIdx hgen
        hbatch hsubm hle

/-- C6: the backfill driver is fail-fast — on a run in which every batch
before batch `N` commits successfully and batch `N` fails terminally (the
committer result is not success, i.e. exhaustion or a fatal error), at most
the records of batches `0..N` (`(N+1) * batchSize` records) are ever
generated and only the records of batches `0..N-1` (`N * batchSize`) are
ever submitted: nothing belonging to a later batch is generated or
submitted after the failure. -/
theorem C6_terminal_failure_halts_run (sink : ℕ → ℕ → Backfill.SinkResult)
    (batchSize N : ℕ) (rooms : List String) (u : ℤ → String → ℕ → ℚ)
    (now H I : ℤ) (hbs : 0 < batchSize)
    (hb : ∀ b, b < N → (Backfill.commit_batch_with_retry
      (fun a => sink b a)).isCommitted = true)
    (hN : (Backfill.commit_batch_with_retry
      (fun a => sink N a)).isCommitted = false) :
    (Backfill.backfill_historical_data sink batchSize rooms u now H
        I).generated.length ≤ (N + 1) * batchSize
    ∧ (Backfill.backfill_historical_data sink batchSize rooms u now H
        I).submitted.length ≤ N * batchSize := by
  unfold Backfill.backfill_historical_data
  exact backfillLoop_fail_spec sink batchSize N hbs hb hN rooms u now I
    H.toNat (now - H) [] 0 [] [] (by simp) hbs (by simp) (Nat.zero_le N)

/-- C6 witness: two rooms, batch size 4, the first two batches succeed and
batch 2 fails fatally — at most 12 records generated, at most 8 submitted. -/
theorem C6_terminal_failure_halts_witness :
    (0 : ℕ) < 4
    ∧ (∀ b : ℕ, b < 2 → (Backfill.commit_batch_with_retry
        (fun a => (fun b2 _ : ℕ => if b2 < 2 then Backfill.SinkResult.success
          else Backfill.SinkResult.fatal) b a)).isCommitted = true)
    ∧ (Backfill.commit_batch_with_retry
        (fun a => (fun b2 _ : ℕ => if b2 < 2 then Backfill.SinkResult.success
          else Backfill.SinkResult.fatal) 2 a)).isCommitted = false
    ∧ (Backfill.backfill_historical_data
        (fun b2 _ => if b2 < 2 then .success else .fatal) 4 ["A", "B"]
        (fun _ _ _ => 0) 1440 1440 60).generated.length ≤ 3 * 4
    ∧ (Backfill.backfill_historical_data
        (fun b2 _ => if b2 < 2 then .success else .fatal) 4 ["A", "B"]
        (fun _ _ _ => 0) 1440 1440 60).submitted.length ≤ 2 * 4 := by
  have h := C6_terminal_failure_halts_run
    (fun b2 _ => if b2 < 2 then .success else .fatal) 4 2 ["A", "B"]
    (fun _ _ _ => 0) 1440 1440 60 (by decide) (by decide) (by decide)
  exact ⟨by decide, by decide, by decide, h.1, h.2⟩

/-- C10 counterexample: the result of the trailing commit is only partially
ignored — a fatal (non-transient) error raised inside the trailing
`commit_batch_with_retry` call propagates and aborts the run before the
completion message.  Concretely: one room, one tick (horizon 60, interval
60), batch size 50, so the single record sits in the trailing partial batch,
and an always-fatal sink: the run ends `abortedFatal`, not `completed`. -/
theorem C10_counterexample_trailing_fatal_aborts :
    (Backfill.backfill_historical_data (fun _ _ => .fatal) 50 ["A"]
        (fun _ _ _ => 0) 60 60 60).outcome = .abortedFatal
    ∧ (Backfill.backfill_historical_data (fun _ _ => .fatal) 50 ["A"]
        (fun _ _ _ => 0) 60 60 60).outcome ≠ .completed := by
  have heval : (Backfill.backfill_historical_data (fun _ _ => .fatal) 50 ["A"]
      (fun _ _ _ => 0) 60 60 60).outcome = .abortedFatal := by
    simp only [Backfill.backfill_historical_data, Int.toNat_ofNat]
    norm_num [Backfill.backfillLoop, Backfill.roomsPass,
      Backfill.finishTrailing, Backfill.commit_batch_with_retry,
      Backfill.commitAttempts, Backfill.max_retries]
  exact ⟨heval, by rw [heval]; exact fun h => by cases h⟩

/-- C10 amended: only the EXHAUSTION result of the trailing commit is
ignored: whenever the trailing `commit_batch_with_retry` call returns
`False` (retry budget exhausted on transient errors), the driver still falls
through to the completion message and reports the run complete, with the
trailing records not submitted; a fatal error in the trailing commit still
aborts the run (see the counterexample).  The second conjunct runs the whole
driver against an always-transient sink: one record is generated, its
trailing commit exhausts all 5 attempts, and the run is still reported
complete. -/
theorem C10_amended_trailing_exhaustion_ignored :
    (∀ (sink : ℕ → ℕ → Backfill.SinkResult)
        (batch : List Backfill.SensorData) (bIdx : ℕ)
        (gen subm : List Backfill.SensorData) (a : ℕ) (ds : List ℕ),
        Backfill.commit_batch_with_retry (fun k => sink bIdx k)
          = .exhausted a ds →
        Backfill.finishTrailing sink batch bIdx gen subm
          = ⟨.completed, gen, subm⟩)
    ∧ (Backfill.backfill_historical_data (fun _ _ => .transient) 50 ["A"]
        (fun _ _ _ => 0) 60 60 60).outcome = .completed := by
  constructor
  · intro sink batch bIdx gen subm a ds hcom
    unfold Backfill.finishTrailing
    by_cases hemp : batch.isEmpty
    · rw [if_pos hemp]
    · rw [if_neg hemp, hcom]
  · simp only [Backfill.backfill_historical_data, Int.toNat_ofNat]
    norm_num [Backfill.backfillLoop, Backfill.roomsPass,
      Backfill.finishTrailing, Backfill.commit_batch_with_retry,
      Backfill.commitAttempts, Backfill.max_retries]

/-- C10 amended witness: the trailing-flush clause applied to a concrete
non-empty trailing batch and an always-transient sink. -/
theorem C10_amended_trailing_exhaustion_witness :
    Backfill.commit_batch_with_retry
        (fun k => (fun _ _ : ℕ => Backfill.SinkResult.transient) 0 k)
      = .exhausted 5 [5, 10, 20, 40, 80]
    ∧ Backfill.finishTrailing (fun _ _ => .transient)
        [⟨0, 0, 0, 0, 0, 0, 0, none⟩] 0 [⟨0, 0, 0, 0, 0, 0, 0, none⟩] []
      = ⟨.completed, [⟨0, 0, 0, 0, 0, 0, 0, none⟩], []⟩ :=
  ⟨rfl, C10_amended_trailing_exhaustion_ignored.1 (fun _ _ => .transient)
    [⟨0, 0, 0, 0, 0, 0, 0, none⟩] 0 [⟨0, 0, 0, 0, 0, 0, 0, none⟩] [] 5
    [5, 10, 20, 40, 80] rfl⟩
